import Mathlib

/-!
Shallow embedding of the Hide 'n' Seek game server (`server.js`, refactored
version): the `Player` and `Room` classes, the room operations invoked by the
Socket.IO handlers, and the timer-tick callbacks.  Sound identifiers are the
literal URL strings of the source; `Math.random` draws are threaded through
explicitly as `Picks` oracles so that theorems quantify over every possible
draw; wall-clock reads (`Date.now()`) are explicit `now` parameters in
milliseconds; `setInterval`/`setTimeout` handles are modelled as booleans that
record whether the corresponding timer is scheduled.  Fallible operations
(methods that `throw`) return `Except String Room`; `updateSettings`, whose
partial mutations survive the throw in the source, returns the final room
state together with an optional error.
-/

namespace HideNSeek

/-- Connection-scoped socket identifier (opaque in the source). -/
abbrev SocketId := Nat

-- Constants from the configuration block of server.js.

def MIN_PLAYERS_TO_START : Nat := 2
def DEFAULT_SEEK_TIME_LIMIT_S : Nat := 120
def MIN_SEEK_TIME_LIMIT_S : Int := 15
def MAX_SEEK_TIME_LIMIT_S : Int := 600
def DEFAULT_SOUND_PLAYS_PER_PLAYER : Nat := 6
def MIN_SOUND_PLAYS : Int := 1
def MAX_SOUND_PLAYS : Int := 20
def PRE_SEEK_COUNTDOWN_S : Int := 10
def MIN_SOUND_DELAY_MS : ℚ := 1000
def CHECK_INTERVAL_WHEN_NO_SOUNDS_MS : ℚ := 1500

def BASE_ANIMAL_SOUNDS : List String :=
  ["/sounds/cat.mp3", "/sounds/chicken.mp3", "/sounds/cow.mp3", "/sounds/dog.mp3",
   "/sounds/donkey.mp3", "/sounds/horse.mp3", "/sounds/sheep.mp3", "/sounds/bird.mp3"]

def BASE_UNFOUND_SOUNDS : List String :=
  ["/sounds/unfound1.mp3", "/sounds/unfound2.mp3", "/sounds/unfound3.mp3", "/sounds/unfound4.mp3",
   "/sounds/unfound5.mp3", "/sounds/unfound6.mp3", "/sounds/unfound7.mp3", "/sounds/unfound8.mp3"]

def NUM_UNIQUE_SOUND_PAIRS : Nat :=
  min BASE_ANIMAL_SOUNDS.length BASE_UNFOUND_SOUNDS.length

inductive GameState
  | Waiting
  | Hiding
  | Seeking
  | GameOver
deriving DecidableEq

inductive Role
  | Hider
  | Seeker
deriving DecidableEq

inductive Winner
  | Hider
  | Seekers
deriving DecidableEq

/-- The `Player` class: per-connection role/status record. -/
structure Player where
  id : SocketId
  number : Nat
  role : Role
  isReady : Bool := false
  isFound : Bool := false
  soundsPlayed : Nat := 0
  uniqueAnimalSoundURL : Option String := none
  uniqueUnfoundSoundURL : Option String := none
deriving DecidableEq

/-- `Player.resetForNewGame`: clears ready/found flags and the sound counter. -/
def Player.resetForNewGame (p : Player) : Player :=
  { p with isReady := false, isFound := false, soundsPlayed := 0 }

/-- `Player.resetForSeeking`: clears the ready flag and the sound counter. -/
def Player.resetForSeeking (p : Player) : Player :=
  { p with isReady := false, soundsPlayed := 0 }

/-- Targeted/broadcast emissions that the claims observe. -/
inductive Event
  | updateState
  | errorMsg (target : SocketId)
  | playSound (target : SocketId) (soundURL : String)
  | playVictoryMelody
  | becomeActiveUnfound (target : SocketId) (soundURL : String)
deriving DecidableEq

/-- One `Math.random` draw pair for `_assignUniqueSounds` (an index into the
filtered available list; taken modulo its length). -/
structure Picks where
  animalPick : Nat
  unfoundPick : Nat
deriving DecidableEq

/-- The argument of the `updateSettings` socket event, after `parseInt`:
`none` = field `undefined`; `some none` = present but parses to `NaN`;
`some (some v)` = parses to the integer `v`. -/
structure Settings where
  seekTimeLimit : Option (Option Int) := none
  soundPlaysPerPlayer : Option (Option Int) := none
deriving DecidableEq

/-- The `Room` class.  `players` is kept in insertion (join) order, matching
`Object.values(this.players)`; the three interval/timeout handles are the
booleans `preSeekCountdownOn`, `seekTimerOn`, `soundRotationOn` (true exactly
when the handle is non-null in the source). -/
structure Room where
  players : List Player := []
  gameState : GameState := GameState.Waiting
  seekTimeLimit : Nat := DEFAULT_SEEK_TIME_LIMIT_S
  soundPlaysPerPlayer : Nat := DEFAULT_SOUND_PLAYS_PER_PLAYER
  seekTimerOn : Bool := false
  seekStartTime : Option Nat := none
  winner : Option Winner := none
  preSeekCountdownOn : Bool := false
  preSeekCountdownValue : Int := PRE_SEEK_COUNTDOWN_S
  soundRotationOn : Bool := false
  nextPlayerIndexToPlay : Nat := 0
  assignedAnimalSounds : List String := []
  assignedUnfoundSounds : List String := []
  unfoundPlayerQueue : List SocketId := []
  activeUnfoundPlayerId : Option SocketId := none
deriving DecidableEq

/-- `Set.add` on the room's assigned-sound sets (JS `Set`: insert if absent). -/
def setAdd (l : List String) (s : String) : List String :=
  if s ∈ l then l else s :: l

/-- In-place mutation of the player object with the given id
(ids are unique within a room, as JS object keys). -/
def updatePlayer (ps : List Player) (id : SocketId) (f : Player → Player) : List Player :=
  ps.map (fun p => if p.id = id then f p else p)

instance : DecidableRel (fun (a b : Player) => a.number ≤ b.number) :=
  fun a b => Nat.decLe a.number b.number

instance : IsTotal Player (fun a b => a.number ≤ b.number) :=
  ⟨fun a b => Nat.le_total a.number b.number⟩

instance : IsTrans Player (fun a b => a.number ≤ b.number) :=
  ⟨fun _ _ _ hab hbc => Nat.le_trans hab hbc⟩

/-- `Array.prototype.sort((a, b) => a.number - b.number)`: a stable sort by
player number (insertion sort is stable, like the spec-mandated JS sort). -/
def sortByNumber (l : List Player) : List Player :=
  l.insertionSort (fun a b => a.number ≤ b.number)

/-- `this.players[socketId]` lookup. -/
def Room.getPlayer (r : Room) (socketId : SocketId) : Option Player :=
  r.players.find? (fun p => p.id == socketId)

/-- `Room.isEmpty`. -/
def Room.isEmpty (r : Room) : Bool :=
  r.players.isEmpty

/-- `Room.getPlayerCount`. -/
def Room.getPlayerCount (r : Room) : Nat :=
  r.players.length

/-- `Room._checkAllRemainingReady`. -/
def Room.checkAllRemainingReady (r : Room) : Bool :=
  if r.players.isEmpty then false else r.players.all (·.isReady)

/-- `Room.clearGameIntervals`: cancels the three timers and resets the
sound-rotation index. -/
def Room.clearGameIntervals (r : Room) : Room :=
  { r with preSeekCountdownOn := false, seekTimerOn := false,
           soundRotationOn := false, nextPlayerIndexToPlay := 0 }

/-- `Room._assignUniqueSounds` (NUM_UNIQUE_SOUND_PAIRS = 8 > 0, so the
null-assignment branch of the source is dead): draw a uniformly random unused
animal sound — the oracle pick is reduced modulo the number of available
sounds — or fall back to `pool[(number - 1) % N]` when the pool is exhausted;
independently likewise for the unfound sound; record both in the room's
assigned sets.  Returns the updated room and the player with URLs set. -/
def Room.assignUniqueSounds (r : Room) (p : Player) (pk : Picks) : Room × Player :=
  let availableAnimal := BASE_ANIMAL_SOUNDS.filter (fun s => !(r.assignedAnimalSounds.contains s))
  let animalSoundURL :=
    if h : 0 < availableAnimal.length then
      availableAnimal.get ⟨pk.animalPick % availableAnimal.length, Nat.mod_lt _ h⟩
    else
      BASE_ANIMAL_SOUNDS.getD ((p.number - 1) % NUM_UNIQUE_SOUND_PAIRS) ""
  let availableUnfound := BASE_UNFOUND_SOUNDS.filter (fun s => !(r.assignedUnfoundSounds.contains s))
  let unfoundSoundURL :=
    if h : 0 < availableUnfound.length then
      availableUnfound.get ⟨pk.unfoundPick % availableUnfound.length, Nat.mod_lt _ h⟩
    else
      BASE_UNFOUND_SOUNDS.getD ((p.number - 1) % NUM_UNIQUE_SOUND_PAIRS) ""
  ({ r with assignedAnimalSounds := setAdd r.assignedAnimalSounds animalSoundURL,
            assignedUnfoundSounds := setAdd r.assignedUnfoundSounds unfoundSoundURL },
   { p with uniqueAnimalSoundURL := some animalSoundURL,
            uniqueUnfoundSoundURL := some unfoundSoundURL })

/-- `Room.addPlayer`: only while Waiting, only if not already a member; the
new player is numbered `count + 1` and is the Hider exactly when they are the
first player.  `none` models the thrown error (the source throws before any
mutation). -/
def Room.addPlayer (r : Room) (socketId : SocketId) (pk : Picks) : Option Room :=
  if r.gameState ≠ GameState.Waiting then none
  else if (r.getPlayer socketId).isSome then none
  else
    let playerNumber := r.players.length + 1
    let role := if playerNumber = 1 then Role.Hider else Role.Seeker
    let newPlayer : Player := { id := socketId, number := playerNumber, role := role }
    let rp := r.assignUniqueSounds newPlayer pk
    some { rp.1 with players := rp.1.players ++ [rp.2] }

/-- `Room._promoteNewHider`: the head of the roster sorted by `number` (the
lowest-numbered remaining player) becomes the Hider. -/
def Room.promoteNewHider (r : Room) : Room :=
  match sortByNumber r.players with
  | [] => r
  | p0 :: _ => { r with players := updatePlayer r.players p0.id (fun p => { p with role := Role.Hider }) }

/-- The loop of `Room.activateNextUnfoundPlayer` over the reveal queue: pop
ids until one names a present player with an unfound-sound URL (who becomes
`activeUnfoundPlayerId`, receiving a targeted cue) or the queue is exhausted
(active player cleared).  Skipped entries are dropped from the queue, exactly
as the source's recursive shift-and-retry. -/
def Room.activateFrom (r : Room) : List SocketId → Room
  | [] => { r with unfoundPlayerQueue := [], activeUnfoundPlayerId := none }
  | nextPlayerId :: rest =>
    match r.getPlayer nextPlayerId with
    | some player =>
      if player.uniqueUnfoundSoundURL.isSome then
        { r with unfoundPlayerQueue := rest, activeUnfoundPlayerId := some nextPlayerId }
      else Room.activateFrom r rest
    | none => Room.activateFrom r rest

/-- `Room.activateNextUnfoundPlayer`: only runs during GameOver. -/
def Room.activateNextUnfoundPlayer (r : Room) : Room :=
  if r.gameState = GameState.GameOver then r.activateFrom r.unfoundPlayerQueue else r

/-- `Room.startGameOverReveal`: builds the reveal queue from the not-found
players ordered by `number` and activates the first. -/
def Room.startGameOverReveal (r : Room) : Room :=
  if r.winner ≠ some Winner.Hider then r
  else
    let queue := (sortByNumber (r.players.filter (fun p => !p.isFound))).map (·.id)
    Room.activateNextUnfoundPlayer { r with unfoundPlayerQueue := queue }

/-- `Room.endGame`: a no-op if the game is already over; otherwise cancels
all timers, enters GameOver with the given winner, and on a Hider win starts
the reveal sequence (on a Seekers win it emits the victory melody, which does
not change room state). -/
def Room.endGame (r : Room) (winner : Winner) : Room :=
  if r.gameState = GameState.GameOver then r
  else
    let r2 := { r.clearGameIntervals with gameState := GameState.GameOver, winner := some winner }
    if winner = Winner.Hider then r2.startGameOverReveal else r2

/-- `Room.checkSeekerWin`: during Seeking, if every player is found, end the
game with winner = Seekers; the boolean records whether the game was ended. -/
def Room.checkSeekerWin (r : Room) : Room × Bool :=
  if r.gameState ≠ GameState.Seeking then (r, false)
  else if r.players.all (·.isFound) then (r.endGame Winner.Seekers, true)
  else (r, false)

/-- `Room.startPreSeekCountdown`: a no-op if already counting down. -/
def Room.startPreSeekCountdown (r : Room) : Room :=
  if r.preSeekCountdownOn then r
  else { r with preSeekCountdownValue := PRE_SEEK_COUNTDOWN_S, preSeekCountdownOn := true }

/-- `Room.startSeekTimer`: a no-op if the deadline ticker is already running. -/
def Room.startSeekTimer (r : Room) : Room :=
  if r.seekTimerOn then r else { r with seekTimerOn := true }

/-- `Room.startSeekingPhase` at wall-clock `now`: records `seekStartTime`,
resets the rotation index and the per-player ready/sound counters, starts the
deadline ticker, and schedules the first sound check. -/
def Room.startSeekingPhase (r : Room) (now : Nat) : Room :=
  if r.gameState = GameState.Seeking then r
  else
    let r1 := { r with gameState := GameState.Seeking, seekStartTime := some now,
                       nextPlayerIndexToPlay := 0,
                       players := r.players.map Player.resetForSeeking }
    { r1.startSeekTimer with soundRotationOn := true }

/-- `Room.removePlayer` (disconnect / leave): frees the player's sounds,
deletes the player, and adjusts game state depending on the phase; the boolean
is true when the room became empty and must be deleted. -/
def Room.removePlayer (r : Room) (socketId : SocketId) : Room × Bool :=
  match r.getPlayer socketId with
  | none => (r, false)
  | some disconnectedPlayer =>
    let wasHider := disconnectedPlayer.role = Role.Hider
    let wasActiveUnfound := r.activeUnfoundPlayerId = some socketId
    let wasInSeeking := r.gameState = GameState.Seeking
    let wasInHiding := r.gameState = GameState.Hiding
    let wasInGameOverReveal := r.gameState = GameState.GameOver ∧ r.winner = some Winner.Hider
    let r1 :=
      { r with
        assignedAnimalSounds :=
          match disconnectedPlayer.uniqueAnimalSoundURL with
          | some s => r.assignedAnimalSounds.erase s
          | none => r.assignedAnimalSounds,
        assignedUnfoundSounds :=
          match disconnectedPlayer.uniqueUnfoundSoundURL with
          | some s => r.assignedUnfoundSounds.erase s
          | none => r.assignedUnfoundSounds }
    let r2 := { r1 with players := r1.players.filter (fun p => p.id != socketId) }
    if r2.players.isEmpty then (r2.clearGameIntervals, true)
    else if r2.gameState = GameState.Waiting then
      (if wasHider then r2.promoteNewHider else r2, false)
    else if wasInHiding then
      if r2.checkAllRemainingReady ∧ ¬r2.preSeekCountdownOn then (r2.startPreSeekCountdown, false)
      else (r2, false)
    else if wasInSeeking then
      if wasHider then (r2.endGame Winner.Seekers, false)
      else ((r2.checkSeekerWin).1, false)
    else if wasInGameOverReveal then
      let r3 := { r2 with unfoundPlayerQueue := r2.unfoundPlayerQueue.erase socketId }
      if wasActiveUnfound then (r3.activateNextUnfoundPlayer, false)
      else (r3, false)
    else (r2, false)

/-- `Room.updateSettings`: validates and applies the time limit, then
validates and applies the sound-plays count.  A `throw` in the source aborts
the method but keeps any mutation already made, so the result is the final
room state paired with the optional error message and the `updated` flag
(which controls the success-path broadcast). -/
def Room.updateSettings (r : Room) (settings : Settings) : Room × Bool × Option String :=
  let step1 : Room × Bool × Option String :=
    match settings.seekTimeLimit with
    | none => (r, false, none)
    | some none => (r, false, some "Invalid time limit.")
    | some (some v) =>
      if MIN_SEEK_TIME_LIMIT_S ≤ v ∧ v ≤ MAX_SEEK_TIME_LIMIT_S then
        ({ r with seekTimeLimit := v.toNat }, r.seekTimeLimit ≠ v.toNat, none)
      else (r, false, some "Invalid time limit.")
  match step1 with
  | (r1, _, some e) => (r1, false, some e)
  | (r1, updated1, none) =>
    match settings.soundPlaysPerPlayer with
    | none => (r1, updated1, none)
    | some none => (r1, updated1, some "Invalid sounds per phone.")
    | some (some v) =>
      if MIN_SOUND_PLAYS ≤ v ∧ v ≤ MAX_SOUND_PLAYS then
        ({ r1 with soundPlaysPerPlayer := v.toNat },
         updated1 ∨ r1.soundPlaysPerPlayer ≠ v.toNat, none)
      else (r1, updated1, some "Invalid sounds per phone.")

/-- The `socket.on('updateSettings')` handler: Hider-only, Waiting-only; a
rejected request emits an error message to the requesting connection only,
a successful update broadcasts the new state to the room. -/
def handleUpdateSettings (r : Room) (requester : SocketId) (settings : Settings) :
    Room × List Event :=
  match r.getPlayer requester with
  | none => (r, [Event.errorMsg requester])
  | some player =>
    if player.role ≠ Role.Hider then (r, [Event.errorMsg requester])
    else if r.gameState ≠ GameState.Waiting then (r, [Event.errorMsg requester])
    else
      match r.updateSettings settings with
      | (r1, _, some _) => (r1, [Event.errorMsg requester])
      | (r1, updated, none) => (r1, if updated then [Event.updateState] else [])

/-- `Room.startHidingPhase`: Waiting-only, needs at least two players; resets
every player's flags and enters Hiding. -/
def Room.startHidingPhase (r : Room) : Except String Room :=
  if r.gameState ≠ GameState.Waiting then .error "Game is not in Waiting state."
  else if r.getPlayerCount < MIN_PLAYERS_TO_START then .error "Need at least 2 players to start."
  else
    let r1 := { r with gameState := GameState.Hiding,
                       players := r.players.map Player.resetForNewGame }
    .ok { r1.clearGameIntervals with winner := none, seekStartTime := none }

/-- `Room.confirmPlayerHidden`: Hiding-only; a repeat confirmation returns
silently; when the last player confirms, the pre-seek countdown starts. -/
def Room.confirmPlayerHidden (r : Room) (socketId : SocketId) : Except String Room :=
  match r.getPlayer socketId with
  | none => .error "Player not found in room."
  | some player =>
    if r.gameState ≠ GameState.Hiding then .error "Not in Hiding phase."
    else if player.isReady then .ok r
    else
      let r1 := { r with players := updatePlayer r.players socketId (fun p => { p with isReady := true }) }
      if r1.checkAllRemainingReady then .ok r1.startPreSeekCountdown
      else .ok r1

/-- `Room.markPlayerFound`: a repeat mark returns silently (before the phase
check); valid during Seeking (then the Seekers-win condition is checked) or
during a GameOver Hider-win reveal (then the reveal queue/active player are
updated). -/
def Room.markPlayerFound (r : Room) (socketId : SocketId) : Except String Room :=
  match r.getPlayer socketId with
  | none => .error "Player not found."
  | some player =>
    if player.isFound then .ok r
    else if r.gameState ≠ GameState.Seeking ∧
            ¬(r.gameState = GameState.GameOver ∧ r.winner = some Winner.Hider) then
      .error "Cannot mark found in current game state."
    else
      let r1 := { r with players := updatePlayer r.players socketId (fun p => { p with isFound := true }) }
      if r1.gameState = GameState.Seeking then .ok (r1.checkSeekerWin).1
      else
        if r1.activeUnfoundPlayerId = some socketId then .ok r1.activateNextUnfoundPlayer
        else .ok { r1 with unfoundPlayerQueue := r1.unfoundPlayerQueue.erase socketId }

/-- The re-assignment loop of `Room.resetForNewGame`: resets each player and
draws fresh sounds, threading the room's assigned sets through the roster in
join order (`oracle k` is the random draw for the k-th player). -/
def reassignLoop (r : Room) (oracle : Nat → Picks) (k : Nat) :
    List Player → Room × List Player
  | [] => (r, [])
  | p :: ps =>
    let rp := r.assignUniqueSounds p.resetForNewGame (oracle k)
    let rest := reassignLoop rp.1 oracle (k + 1) ps
    (rest.1, rp.2 :: rest.2)

/-- `Room.resetForNewGame`: back to Waiting with winner cleared, timers
cancelled, reveal state cleared, both assigned-sound sets cleared, and then
fresh sounds assigned to every player (roles and numbers untouched). -/
def Room.resetForNewGame (r : Room) (oracle : Nat → Picks) : Room :=
  let r3 := { r.clearGameIntervals with
              gameState := GameState.Waiting, winner := none,
              seekStartTime := none, activeUnfoundPlayerId := none,
              unfoundPlayerQueue := [],
              assignedAnimalSounds := [], assignedUnfoundSounds := [] }
  let rp := reassignLoop r3 oracle 0 r3.players
  { rp.1 with players := rp.2 }

/-- `Room.requestPlayAgain`: GameOver-only, members only. -/
def Room.requestPlayAgain (r : Room) (socketId : SocketId) (oracle : Nat → Picks) :
    Except String Room :=
  if r.gameState ≠ GameState.GameOver then .error "Game is not over yet."
  else
    match r.getPlayer socketId with
    | none => .error "Player not found."
    | some _ => .ok (r.resetForNewGame oracle)

/-- The `preSeekCountdownInterval` callback at wall-clock `now`: decrement,
broadcast, and on reaching zero clear the interval and start Seeking. -/
def Room.preSeekCountdownTick (r : Room) (now : Nat) : Room :=
  let r1 := { r with preSeekCountdownValue := r.preSeekCountdownValue - 1 }
  if r1.preSeekCountdownValue ≤ 0 then
    ({ r1 with preSeekCountdownOn := false }).startSeekingPhase now
  else r1

/-- The `seekTimerInterval` callback at wall-clock `now` (milliseconds):
during Seeking, end the game with winner = Hider once the elapsed seconds
reach `seekTimeLimit`; in any other phase the stale interval clears itself. -/
def Room.seekTimerTick (r : Room) (now : Nat) : Room :=
  if r.gameState = GameState.Seeking then
    if ((now : Int) - (r.seekStartTime.getD 0 : Int)) ≥ (r.seekTimeLimit : Int) * 1000 then
      r.endGame Winner.Hider
    else r
  else { r with seekTimerOn := false }

/-- The eligible set of the sound-rotation scheduler: not-found players with
remaining allotment, ordered by `number`. -/
def Room.eligiblePlayers (r : Room) : List Player :=
  (sortByNumber r.players).filter
    (fun p => !p.isFound && decide (p.soundsPlayed < r.soundPlaysPerPlayer))

/-- `totalPlaysLeft = Σ (soundPlaysPerPlayer - soundsPlayed)` over the
eligible players. -/
def Room.totalPlaysLeft (r : Room) : Nat :=
  r.eligiblePlayers.foldl (fun sum p => sum + (r.soundPlaysPerPlayer - p.soundsPlayed)) 0

/-- `Room.scheduleNextSound` at wall-clock `now`: the sound-rotation tick.
Returns the updated room, the emitted events, and `some delayMs` when the
next check was rescheduled (`none` when the schedule stopped).  Delays are
rationals because the source divides the remaining milliseconds by
`totalPlaysLeft` in JS float arithmetic. -/
def Room.scheduleNextSound (r : Room) (now : Nat) : Room × List Event × Option ℚ :=
  if r.gameState ≠ GameState.Seeking then
    ({ r with soundRotationOn := false }, [], none)
  else
    let timeElapsedMs : Int := (now : Int) - (r.seekStartTime.getD 0 : Int)
    let timeRemainingMs : Int := max 0 ((r.seekTimeLimit : Int) * 1000 - timeElapsedMs)
    if timeRemainingMs ≤ 0 then
      ({ r with soundRotationOn := false }, [], none)
    else
      let eligible := r.eligiblePlayers
      if h : 0 < eligible.length then
        let totalPlaysLeft := r.totalPlaysLeft
        if 0 < totalPlaysLeft then
          let dynamicDelayMs : ℚ :=
            max MIN_SOUND_DELAY_MS ((timeRemainingMs : ℚ) / (totalPlaysLeft : ℚ))
          let nextEligiblePlayerIndex := r.nextPlayerIndexToPlay % eligible.length
          let playerToPlay := eligible.get ⟨nextEligiblePlayerIndex, Nat.mod_lt _ h⟩
          let r1 := { r with nextPlayerIndexToPlay := nextEligiblePlayerIndex + 1 }
          match playerToPlay.uniqueAnimalSoundURL with
          | some url =>
            let r2 := { r1 with players := (updatePlayer r1.players playerToPlay.id
                          (fun p => { p with soundsPlayed := p.soundsPlayed + 1 })) }
            ({ r2 with soundRotationOn := true },
             [Event.playSound playerToPlay.id url], some dynamicDelayMs)
          | none =>
            -- eligible player with no sound URL: skip the play, no counter change
            ({ r1 with soundRotationOn := true }, [], some dynamicDelayMs)
        else
          ({ r with soundRotationOn := true }, [], some CHECK_INTERVAL_WHEN_NO_SOUNDS_MS)
      else
        ({ r with soundRotationOn := true }, [], some CHECK_INTERVAL_WHEN_NO_SOUNDS_MS)

/-- The room created by `socket.on('createRoom')`: a fresh empty room whose
creator joins immediately (player 1, the Hider). -/
def initRoom (socketId : SocketId) (pk : Picks) : Option Room :=
  ({} : Room).addPlayer socketId pk

-- =====================  Basic lemmas about the helpers  =====================

theorem getPlayer_some {r : Room} {i : SocketId} {p : Player}
    (h : r.getPlayer i = some p) : p ∈ r.players ∧ p.id = i := by
  unfold Room.getPlayer at h
  refine ⟨List.mem_of_find?_eq_some h, ?_⟩
  have := List.find?_some h
  simpa using this

theorem getPlayer_none {r : Room} {i : SocketId}
    (h : r.getPlayer i = none) : ∀ p ∈ r.players, p.id ≠ i := by
  unfold Room.getPlayer at h
  intro p hp
  have := List.find?_eq_none.mp h p hp
  simpa using this

theorem mem_getPlayer {r : Room} {i : SocketId} {p : Player}
    (hmem : p ∈ r.players) (hid : p.id = i) : (r.getPlayer i).isSome := by
  unfold Room.getPlayer
  cases h : r.players.find? (fun q => q.id == i) with
  | some q => simp
  | none =>
    have := List.find?_eq_none.mp h p hmem
    simp [hid] at this

theorem mem_updatePlayer {ps : List Player} {i : SocketId} {f : Player → Player} {q : Player}
    (h : q ∈ updatePlayer ps i f) :
    ∃ p ∈ ps, q = (if p.id = i then f p else p) := by
  unfold updatePlayer at h
  rcases List.mem_map.mp h with ⟨p, hp, rfl⟩
  exact ⟨p, hp, rfl⟩

theorem updatePlayer_ids (ps : List Player) (i : SocketId) (f : Player → Player)
    (hf : ∀ p, (f p).id = p.id) :
    (updatePlayer ps i f).map Player.id = ps.map Player.id := by
  unfold updatePlayer
  rw [List.map_map]
  apply List.map_congr_left
  intro p _
  by_cases h : p.id = i <;> simp [h, hf]

theorem mem_sortByNumber {l : List Player} {q : Player} :
    q ∈ sortByNumber l ↔ q ∈ l :=
  (List.perm_insertionSort _ l).mem_iff

theorem sortByNumber_perm (l : List Player) : (sortByNumber l).Perm l :=
  List.perm_insertionSort _ l

theorem sortByNumber_head_min {l : List Player} {p0 : Player} {t : List Player}
    (h : sortByNumber l = p0 :: t) : ∀ q ∈ l, p0.number ≤ q.number := by
  intro q hq
  have hs : List.Sorted (fun a b : Player => a.number ≤ b.number) (sortByNumber l) :=
    List.sorted_insertionSort _ l
  rw [h] at hs
  have hq' : q ∈ p0 :: t := by
    rw [← h, mem_sortByNumber]; exact hq
  rcases List.mem_cons.mp hq' with rfl | hq''
  · exact le_refl _
  · exact List.rel_of_sorted_cons hs q hq''

theorem setAdd_mem {l : List String} {s x : String} (h : x ∈ setAdd l s) :
    x = s ∨ x ∈ l := by
  unfold setAdd at h
  by_cases hs : s ∈ l
  · simp [hs] at h; exact Or.inr h
  · simp [hs] at h
    rcases h with rfl | h
    · exact Or.inl rfl
    · exact Or.inr h

-- =====================  activateFrom characterization  =====================

theorem activateFrom_players (r : Room) (l : List SocketId) :
    (r.activateFrom l).players = r.players := by
  induction l with
  | nil => simp [Room.activateFrom]
  | cons x rest ih =>
    unfold Room.activateFrom
    cases hx : r.getPlayer x with
    | none => simpa using ih
    | some p =>
      by_cases hu : p.uniqueUnfoundSoundURL.isSome <;> simp [hx, hu, ih]

theorem activateFrom_frame (r : Room) (l : List SocketId) :
    (r.activateFrom l).gameState = r.gameState ∧
    (r.activateFrom l).winner = r.winner ∧
    (r.activateFrom l).seekTimeLimit = r.seekTimeLimit ∧
    (r.activateFrom l).soundPlaysPerPlayer = r.soundPlaysPerPlayer ∧
    (r.activateFrom l).seekTimerOn = r.seekTimerOn ∧
    (r.activateFrom l).preSeekCountdownOn = r.preSeekCountdownOn ∧
    (r.activateFrom l).soundRotationOn = r.soundRotationOn ∧
    (r.activateFrom l).seekStartTime = r.seekStartTime ∧
    (r.activateFrom l).nextPlayerIndexToPlay = r.nextPlayerIndexToPlay := by
  induction l with
  | nil => simp [Room.activateFrom]
  | cons x rest ih =>
    unfold Room.activateFrom
    cases hx : r.getPlayer x with
    | none => simpa using ih
    | some p =>
      by_cases hu : p.uniqueUnfoundSoundURL.isSome <;> simp [hx, hu, ih]

theorem activateFrom_spec (r : Room) (l : List SocketId) :
    ((r.activateFrom l).activeUnfoundPlayerId = none ∧
      (r.activateFrom l).unfoundPlayerQueue = []) ∨
    (∃ a, (r.activateFrom l).activeUnfoundPlayerId = some a ∧
      (a :: (r.activateFrom l).unfoundPlayerQueue) <:+ l ∧
      ∃ p, r.getPlayer a = some p ∧ p.uniqueUnfoundSoundURL.isSome = true) := by
  induction l with
  | nil => left; simp [Room.activateFrom]
  | cons x rest ih =>
    unfold Room.activateFrom
    cases hx : r.getPlayer x with
    | none =>
      rcases ih with h | ⟨a, ha, hsuf, hp⟩
      · left; simpa using h
      · right
        exact ⟨a, by simpa using ha, hsuf.trans (List.suffix_cons x rest), hp⟩
    | some p =>
      by_cases hu : p.uniqueUnfoundSoundURL.isSome
      · right
        refine ⟨x, by simp [hx, hu], ?_, p, hx, hu⟩
        simp [hx, hu]
      · have hu' : p.uniqueUnfoundSoundURL.isSome = false := by
          simpa using hu
        rcases ih with h | ⟨a, ha, hsuf, hp⟩
        · left; simpa [hx, hu'] using h
        · right
          refine ⟨a, by simpa [hx, hu'] using ha, ?_, hp⟩
          have : (a :: (r.activateFrom rest).unfoundPlayerQueue) <:+ x :: rest :=
            hsuf.trans (List.suffix_cons x rest)
          simpa [hx, hu'] using this

theorem activateFrom_queue_suffix (r : Room) (l : List SocketId) :
    (r.activateFrom l).unfoundPlayerQueue <:+ l := by
  rcases activateFrom_spec r l with ⟨_, hq⟩ | ⟨a, _, hsuf, _⟩
  · rw [hq]; exact List.nil_suffix
  · exact (List.suffix_cons a _).trans hsuf

-- =====================  Transition system and invariant  =====================

/-- One observable transition of a live room: an inbound socket action that
mutated the room (actions whose guards throw before any mutation produce no
transition; `updateSettings` transitions even on error because its partial
mutation survives the throw), or a tick of one of the three timers (a tick can
only fire while its timer is scheduled).  A `removePlayer` that empties the
room deletes it (no successor state). -/
inductive Step : Room → Room → Prop
  | join (r r' : Room) (id : SocketId) (pk : Picks) :
      r.addPlayer id pk = some r' → Step r r'
  | disconnect (r r' : Room) (id : SocketId) :
      r.removePlayer id = (r', false) → Step r r'
  | settings (r : Room) (id : SocketId) (s : Settings) :
      Step r (handleUpdateSettings r id s).1
  | startHiding (r r' : Room) :
      r.startHidingPhase = .ok r' → Step r r'
  | confirmHidden (r r' : Room) (id : SocketId) :
      r.confirmPlayerHidden id = .ok r' → Step r r'
  | markFound (r r' : Room) (id : SocketId) :
      r.markPlayerFound id = .ok r' → Step r r'
  | playAgain (r r' : Room) (id : SocketId) (oracle : Nat → Picks) :
      r.requestPlayAgain id oracle = .ok r' → Step r r'
  | countdownTick (r : Room) (now : Nat) :
      r.preSeekCountdownOn = true → Step r (r.preSeekCountdownTick now)
  | seekTick (r : Room) (now : Nat) :
      r.seekTimerOn = true → Step r (r.seekTimerTick now)
  | soundTick (r : Room) (now : Nat) :
      r.soundRotationOn = true → Step r (r.scheduleNextSound now).1

/-- Room states reachable by the server: a fresh room with its creator joined
(`createRoom`), closed under `Step`. -/
inductive Reachable : Room → Prop
  | init (id : SocketId) (pk : Picks) (r : Room) :
      initRoom id pk = some r → Reachable r
  | step (r r' : Room) : Reachable r → Step r r' → Reachable r'

/-- The inductive invariant of reachable room states. -/
structure Inv (r : Room) : Prop where
  idsNodup : (r.players.map Player.id).Nodup
  hiderUnique : ∀ p ∈ r.players, ∀ q ∈ r.players,
    p.role = Role.Hider → q.role = Role.Hider → p.id = q.id
  playsPos : 1 ≤ r.soundPlaysPerPlayer
  soundsLe : ∀ p ∈ r.players, p.soundsPlayed ≤ r.soundPlaysPerPlayer
  waitingZero : r.gameState = GameState.Waiting → ∀ p ∈ r.players, p.soundsPlayed = 0
  queueNodup : r.unfoundPlayerQueue.Nodup
  queueGood : ∀ id ∈ r.unfoundPlayerQueue, ∃ p ∈ r.players, p.id = id ∧ p.isFound = false
  activeGood : ∀ a, r.activeUnfoundPlayerId = some a →
    (∃ p ∈ r.players, p.id = a ∧ p.isFound = false) ∧ a ∉ r.unfoundPlayerQueue
  revealOnly : ¬(r.gameState = GameState.GameOver ∧ r.winner = some Winner.Hider) →
    r.unfoundPlayerQueue = [] ∧ r.activeUnfoundPlayerId = none
  countdownHiding : r.preSeekCountdownOn = true → r.gameState = GameState.Hiding

-- =====================  Invariant preservation helpers  =====================

theorem activateFrom_good (r : Room) (L : List SocketId)
    (hnd : L.Nodup)
    (hgood : ∀ id ∈ L, ∃ p ∈ r.players, p.id = id ∧ p.isFound = false) :
    (∀ id ∈ (r.activateFrom L).unfoundPlayerQueue,
        ∃ p ∈ r.players, p.id = id ∧ p.isFound = false) ∧
    (r.activateFrom L).unfoundPlayerQueue.Nodup ∧
    (∀ a, (r.activateFrom L).activeUnfoundPlayerId = some a →
      (∃ p ∈ r.players, p.id = a ∧ p.isFound = false) ∧
      a ∉ (r.activateFrom L).unfoundPlayerQueue) := by
  have hsuf := activateFrom_queue_suffix r L
  have hsub : (r.activateFrom L).unfoundPlayerQueue ⊆ L := hsuf.sublist.subset
  refine ⟨fun id hid => hgood id (hsub hid), hnd.sublist hsuf.sublist, ?_⟩
  intro a ha
  rcases activateFrom_spec r L with ⟨hnone, _⟩ | ⟨b, hb, hbsuf, _⟩
  · rw [hnone] at ha; exact absurd ha (by simp)
  · rw [hb] at ha
    have hba : b = a := by injection ha
    have hmem : a ∈ L := by
      rw [← hba]
      exact hbsuf.sublist.subset (List.mem_cons_self b _)
    have hnd' : (a :: (r.activateFrom L).unfoundPlayerQueue).Nodup := by
      rw [← hba]
      exact hnd.sublist hbsuf.sublist
    exact ⟨hgood a hmem, (List.nodup_cons.mp hnd').1⟩

/-- The reveal build of `endGame Winner.Hider` (from a not-yet-over game),
written as one `activateFrom` application. -/
def revealQueueOf (r : Room) : List SocketId :=
  (sortByNumber (r.players.filter (fun p => !p.isFound))).map (·.id)

theorem endGame_hider_eq (r : Room) (hg : r.gameState ≠ GameState.GameOver) :
    r.endGame Winner.Hider =
      Room.activateFrom
        { r.clearGameIntervals with
          gameState := GameState.GameOver,
          winner := some Winner.Hider, unfoundPlayerQueue := revealQueueOf r }
        (revealQueueOf r) := by
  unfold Room.endGame Room.startGameOverReveal Room.activateNextUnfoundPlayer revealQueueOf
  simp [hg, Room.clearGameIntervals]

theorem endGame_seekers_eq (r : Room) (hg : r.gameState ≠ GameState.GameOver) :
    r.endGame Winner.Seekers =
      { r.clearGameIntervals with
        gameState := GameState.GameOver,
        winner := some Winner.Seekers } := by
  unfold Room.endGame
  simp [hg]

theorem revealQueueOf_nodup {r : Room} (hr : Inv r) : (revealQueueOf r).Nodup := by
  unfold revealQueueOf
  have h1 : ((r.players.filter (fun p => !p.isFound)).map Player.id).Sublist
      (r.players.map Player.id) :=
    (List.filter_sublist r.players).map Player.id
  have h2 : ((r.players.filter (fun p => !p.isFound)).map Player.id).Nodup :=
    hr.idsNodup.sublist h1
  have hperm := (sortByNumber_perm (r.players.filter (fun p => !p.isFound))).map Player.id
  exact hperm.nodup_iff.mpr h2

theorem revealQueueOf_good (r : Room) :
    ∀ id ∈ revealQueueOf r, ∃ p ∈ r.players, p.id = id ∧ p.isFound = false := by
  intro id hid
  rcases List.mem_map.mp hid with ⟨p, hp, rfl⟩
  have hp' : p ∈ r.players.filter (fun p => !p.isFound) := mem_sortByNumber.mp hp
  have hp2 := List.mem_filter.mp hp'
  exact ⟨p, hp2.1, rfl, by simpa using hp2.2⟩

theorem endGame_players (r : Room) (w : Winner) :
    (r.endGame w).players = r.players := by
  by_cases hg : r.gameState = GameState.GameOver
  · unfold Room.endGame; simp [hg]
  · cases w with
    | Hider =>
      rw [endGame_hider_eq r hg, activateFrom_players]
      rfl
    | Seekers =>
      rw [endGame_seekers_eq r hg]
      rfl

theorem endGame_state (r : Room) (w : Winner) (hg : r.gameState ≠ GameState.GameOver) :
    (r.endGame w).gameState = GameState.GameOver ∧ (r.endGame w).winner = some w := by
  cases w with
  | Hider =>
    rw [endGame_hider_eq r hg]
    refine ⟨?_, ?_⟩
    · rw [(activateFrom_frame _ _).1]
    · rw [(activateFrom_frame _ _).2.1]
  | Seekers => rw [endGame_seekers_eq r hg]; exact ⟨rfl, rfl⟩

theorem endGame_flags (r : Room) (w : Winner) (hg : r.gameState ≠ GameState.GameOver) :
    (r.endGame w).preSeekCountdownOn = false ∧ (r.endGame w).seekTimerOn = false ∧
    (r.endGame w).soundRotationOn = false := by
  cases w with
  | Hider =>
    rw [endGame_hider_eq r hg]
    refine ⟨?_, ?_, ?_⟩
    · rw [(activateFrom_frame _ _).2.2.2.2.2.1]; rfl
    · rw [(activateFrom_frame _ _).2.2.2.2.1]; rfl
    · rw [(activateFrom_frame _ _).2.2.2.2.2.2.1]; rfl
  | Seekers => rw [endGame_seekers_eq r hg]; exact ⟨rfl, rfl, rfl⟩

theorem inv_endGame {r : Room} (hr : Inv r) (w : Winner) : Inv (r.endGame w) := by
  by_cases hg : r.gameState = GameState.GameOver
  · unfold Room.endGame; simp only [hg, if_pos]; exact hr
  · have hro := hr.revealOnly (fun h => hg h.1)
    cases w with
    | Hider =>
      rw [endGame_hider_eq r hg]
      set rq : Room := { r.clearGameIntervals with
          gameState := GameState.GameOver,
          winner := some Winner.Hider, unfoundPlayerQueue := revealQueueOf r } with hrq
      have hrqp : rq.players = r.players := rfl
      have hLgood : ∀ id ∈ revealQueueOf r,
          ∃ p ∈ rq.players, p.id = id ∧ p.isFound = false := by
        rw [hrqp]; exact revealQueueOf_good r
      have hgood := activateFrom_good rq (revealQueueOf r) (revealQueueOf_nodup hr) hLgood
      have hfr := activateFrom_frame rq (revealQueueOf r)
      have hpl := activateFrom_players rq (revealQueueOf r)
      rw [hrqp] at hpl
      constructor
      · rw [hpl]; exact hr.idsNodup
      · rw [hpl]; exact hr.hiderUnique
      · rw [hfr.2.2.2.1]; exact hr.playsPos
      · rw [hpl, hfr.2.2.2.1]; exact hr.soundsLe
      · rw [hfr.1]; intro h; exact absurd h (by simp)
      · exact hgood.2.1
      · intro id hid
        rw [hpl, ← hrqp]
        exact hgood.1 id hid
      · intro a ha
        rw [hpl, ← hrqp]
        exact hgood.2.2 a ha
      · rw [hfr.1, hfr.2.1]
        intro h
        exact absurd ⟨rfl, rfl⟩ h
      · rw [hfr.2.2.2.2.2.1]
        intro h
        simp [Room.clearGameIntervals] at h
    | Seekers =>
      rw [endGame_seekers_eq r hg]
      constructor
      · exact hr.idsNodup
      · exact hr.hiderUnique
      · exact hr.playsPos
      · exact hr.soundsLe
      · intro h; exact absurd h (by simp)
      · show r.unfoundPlayerQueue.Nodup
        exact hr.queueNodup
      · intro id hid
        exact hr.queueGood id hid
      · intro a ha
        exact hr.activeGood a ha
      · intro _
        exact ⟨hro.1, hro.2⟩
      · intro h; simp [Room.clearGameIntervals] at h

theorem hiderUnique_map {ps : List Player} {g : Player → Player}
    (hid : ∀ p, (g p).id = p.id) (hrole : ∀ p, (g p).role = p.role)
    (h : ∀ p ∈ ps, ∀ q ∈ ps, p.role = Role.Hider → q.role = Role.Hider → p.id = q.id) :
    ∀ p ∈ ps.map g, ∀ q ∈ ps.map g,
      p.role = Role.Hider → q.role = Role.Hider → p.id = q.id := by
  intro p hp q hq hpr hqr
  rcases List.mem_map.mp hp with ⟨p0, hp0, rfl⟩
  rcases List.mem_map.mp hq with ⟨q0, hq0, rfl⟩
  rw [hid, hid]
  exact h p0 hp0 q0 hq0 (by rw [← hrole]; exact hpr) (by rw [← hrole]; exact hqr)

theorem hiderUnique_updatePlayer (ps : List Player) (i : SocketId) (f : Player → Player)
    (hid : ∀ p, (f p).id = p.id) (hrole : ∀ p, (f p).role = p.role)
    (h : ∀ p ∈ ps, ∀ q ∈ ps, p.role = Role.Hider → q.role = Role.Hider → p.id = q.id) :
    ∀ p ∈ updatePlayer ps i f, ∀ q ∈ updatePlayer ps i f,
      p.role = Role.Hider → q.role = Role.Hider → p.id = q.id := by
  intro p hp q hq hpr hqr
  rcases mem_updatePlayer hp with ⟨p0, hp0, rfl⟩
  rcases mem_updatePlayer hq with ⟨q0, hq0, rfl⟩
  have hpid : (if p0.id = i then f p0 else p0).id = p0.id := by
    by_cases hc : p0.id = i <;> simp [hc, hid]
  have hqid : (if q0.id = i then f q0 else q0).id = q0.id := by
    by_cases hc : q0.id = i <;> simp [hc, hid]
  have hprole : (if p0.id = i then f p0 else p0).role = p0.role := by
    by_cases hc : p0.id = i <;> simp [hc, hrole]
  have hqrole : (if q0.id = i then f q0 else q0).role = q0.role := by
    by_cases hc : q0.id = i <;> simp [hc, hrole]
  rw [hpid, hqid]
  exact h p0 hp0 q0 hq0 (hprole ▸ hpr) (hqrole ▸ hqr)

theorem inv_checkSeekerWin {r : Room} (hr : Inv r) : Inv (r.checkSeekerWin).1 := by
  unfold Room.checkSeekerWin
  split
  · exact hr
  · split
    · exact inv_endGame hr _
    · exact hr

theorem assignUniqueSounds_snd (r : Room) (p : Player) (pk : Picks) :
    (r.assignUniqueSounds p pk).2.id = p.id ∧
    (r.assignUniqueSounds p pk).2.number = p.number ∧
    (r.assignUniqueSounds p pk).2.role = p.role ∧
    (r.assignUniqueSounds p pk).2.isReady = p.isReady ∧
    (r.assignUniqueSounds p pk).2.isFound = p.isFound ∧
    (r.assignUniqueSounds p pk).2.soundsPlayed = p.soundsPlayed ∧
    (r.assignUniqueSounds p pk).2.uniqueAnimalSoundURL.isSome = true ∧
    (r.assignUniqueSounds p pk).2.uniqueUnfoundSoundURL.isSome = true :=
  ⟨rfl, rfl, rfl, rfl, rfl, rfl, rfl, rfl⟩

theorem assignUniqueSounds_fst (r : Room) (p : Player) (pk : Picks) :
    (r.assignUniqueSounds p pk).1.players = r.players ∧
    (r.assignUniqueSounds p pk).1.gameState = r.gameState ∧
    (r.assignUniqueSounds p pk).1.seekTimeLimit = r.seekTimeLimit ∧
    (r.assignUniqueSounds p pk).1.soundPlaysPerPlayer = r.soundPlaysPerPlayer ∧
    (r.assignUniqueSounds p pk).1.seekTimerOn = r.seekTimerOn ∧
    (r.assignUniqueSounds p pk).1.seekStartTime = r.seekStartTime ∧
    (r.assignUniqueSounds p pk).1.winner = r.winner ∧
    (r.assignUniqueSounds p pk).1.preSeekCountdownOn = r.preSeekCountdownOn ∧
    (r.assignUniqueSounds p pk).1.soundRotationOn = r.soundRotationOn ∧
    (r.assignUniqueSounds p pk).1.nextPlayerIndexToPlay = r.nextPlayerIndexToPlay ∧
    (r.assignUniqueSounds p pk).1.unfoundPlayerQueue = r.unfoundPlayerQueue ∧
    (r.assignUniqueSounds p pk).1.activeUnfoundPlayerId = r.activeUnfoundPlayerId :=
  ⟨rfl, rfl, rfl, rfl, rfl, rfl, rfl, rfl, rfl, rfl, rfl, rfl⟩

/-- The empty room (before `createRoom` adds its creator) satisfies the
invariant. -/
theorem inv_empty : Inv {} := by
  refine ⟨?_, ?_, ?_, ?_, ?_, ?_, ?_, ?_, ?_, ?_⟩ <;>
    simp [DEFAULT_SOUND_PLAYS_PER_PLAYER]

theorem inv_addPlayer {r r' : Room} (hr : Inv r) {i : SocketId} {pk : Picks}
    (h : r.addPlayer i pk = some r') : Inv r' := by
  unfold Room.addPlayer at h
  split at h
  · exact absurd h (by simp)
  · split at h
    · exact absurd h (by simp)
    · rename_i hg hmem
      have hgw : r.gameState = GameState.Waiting := by
        by_contra hc; exact hg hc
      have hnone : r.getPlayer i = none := by
        cases hx : r.getPlayer i with
        | none => rfl
        | some q => rw [hx] at hmem; exact absurd rfl hmem
      have hid_new := getPlayer_none hnone
      injection h with h'
      subst h'
      set newP : Player :=
        { id := i, number := r.players.length + 1,
          role := if r.players.length + 1 = 1 then Role.Hider else Role.Seeker } with hnewP
      have hplayers :
          ((r.assignUniqueSounds newP pk).1).players = r.players := rfl
      constructor
      · show ((r.players ++ [(r.assignUniqueSounds newP pk).2]).map Player.id).Nodup
        rw [List.map_append]
        rw [List.nodup_append]
        refine ⟨hr.idsNodup, by simp, ?_⟩
        intro x hx
        rcases List.mem_map.mp hx with ⟨p, hp, rfl⟩
        simp only [List.map_cons, List.map_nil]
        intro hmem2
        rcases List.mem_singleton.mp hmem2 with heq
        have : (r.assignUniqueSounds newP pk).2.id = i := (assignUniqueSounds_snd r newP pk).1
        rw [this] at heq
        exact hid_new p hp heq
      · show ∀ p ∈ r.players ++ [(r.assignUniqueSounds newP pk).2],
          ∀ q ∈ r.players ++ [(r.assignUniqueSounds newP pk).2],
          p.role = Role.Hider → q.role = Role.Hider → p.id = q.id
        intro p hp q hq hpr hqr
        have hrole : (r.assignUniqueSounds newP pk).2.role = newP.role :=
          (assignUniqueSounds_snd r newP pk).2.2.1
        rcases List.mem_append.mp hp with hp1 | hp2 <;>
          rcases List.mem_append.mp hq with hq1 | hq2
        · exact hr.hiderUnique p hp1 q hq1 hpr hqr
        · -- q is the new player: if anyone was already present, newP is a Seeker
          rcases List.mem_singleton.mp hq2 with rfl
          exfalso
          have hne : r.players ≠ [] := by
            intro hnil; rw [hnil] at hp1; exact absurd hp1 (by simp)
          have hlen : r.players.length + 1 ≠ 1 := by
            intro hcon
            exact hne (List.length_eq_zero.mp (by omega))
          rw [hrole] at hqr
          simp only [hnewP, hlen, if_neg, ite_false] at hqr
          exact absurd hqr (by simp)
        · rcases List.mem_singleton.mp hp2 with rfl
          exfalso
          have hne : r.players ≠ [] := by
            intro hnil; rw [hnil] at hq1; exact absurd hq1 (by simp)
          have hlen : r.players.length + 1 ≠ 1 := by
            intro hcon
            exact hne (List.length_eq_zero.mp (by omega))
          rw [hrole] at hpr
          simp only [hnewP, hlen, if_neg, ite_false] at hpr
          exact absurd hpr (by simp)
        · rcases List.mem_singleton.mp hp2 with rfl
          rcases List.mem_singleton.mp hq2 with rfl
          rfl
      · exact hr.playsPos
      · intro p hp
        rcases List.mem_append.mp hp with hp1 | hp2
        · exact hr.soundsLe p hp1
        · rcases List.mem_singleton.mp hp2 with rfl
          have : (r.assignUniqueSounds newP pk).2.soundsPlayed = 0 :=
            (assignUniqueSounds_snd r newP pk).2.2.2.2.2.1
          rw [this]
          exact Nat.zero_le _
      · intro _ p hp
        rcases List.mem_append.mp hp with hp1 | hp2
        · exact hr.waitingZero hgw p hp1
        · rcases List.mem_singleton.mp hp2 with rfl
          exact (assignUniqueSounds_snd r newP pk).2.2.2.2.2.1
      · exact hr.queueNodup
      · intro id hid
        have hro := hr.revealOnly (by rw [hgw]; simp)
        have hid' : id ∈ r.unfoundPlayerQueue := hid
        rw [hro.1] at hid'
        exact absurd hid' (by simp)
      · intro a ha
        have hro := hr.revealOnly (by rw [hgw]; simp)
        have ha' : r.activeUnfoundPlayerId = some a := ha
        rw [hro.2] at ha'
        exact absurd ha' (by simp)
      · intro _
        have hro := hr.revealOnly (by rw [hgw]; simp)
        refine ⟨hro.1, hro.2⟩
      · intro hcf
        have := hr.countdownHiding hcf
        rw [hgw] at this
        exact absurd this (by simp)

theorem inv_initRoom {i : SocketId} {pk : Picks} {r : Room}
    (h : initRoom i pk = some r) : Inv r :=
  inv_addPlayer inv_empty h

/-- `Inv` only mentions these seven fields, so it transfers across any
operation that leaves them unchanged. -/
theorem inv_congr (r : Room) {r' : Room}
    (hp : r'.players = r.players) (hg : r'.gameState = r.gameState)
    (hsp : r'.soundPlaysPerPlayer = r.soundPlaysPerPlayer)
    (hq : r'.unfoundPlayerQueue = r.unfoundPlayerQueue)
    (ha : r'.activeUnfoundPlayerId = r.activeUnfoundPlayerId)
    (hw : r'.winner = r.winner) (hc : r'.preSeekCountdownOn = r.preSeekCountdownOn)
    (hr : Inv r) : Inv r' := by
  constructor
  · rw [hp]; exact hr.idsNodup
  · rw [hp]; exact hr.hiderUnique
  · rw [hsp]; exact hr.playsPos
  · rw [hp, hsp]; exact hr.soundsLe
  · rw [hg, hp]; exact hr.waitingZero
  · rw [hq]; exact hr.queueNodup
  · rw [hq, hp]; exact hr.queueGood
  · rw [ha, hp, hq]; exact hr.activeGood
  · rw [hg, hw, hq, ha]; exact hr.revealOnly
  · rw [hc, hg]; exact hr.countdownHiding

theorem updateSettings_frame (r : Room) (s : Settings) :
    (r.updateSettings s).1.players = r.players ∧
    (r.updateSettings s).1.gameState = r.gameState ∧
    (r.updateSettings s).1.unfoundPlayerQueue = r.unfoundPlayerQueue ∧
    (r.updateSettings s).1.activeUnfoundPlayerId = r.activeUnfoundPlayerId ∧
    (r.updateSettings s).1.winner = r.winner ∧
    (r.updateSettings s).1.preSeekCountdownOn = r.preSeekCountdownOn ∧
    (r.updateSettings s).1.seekTimerOn = r.seekTimerOn ∧
    (r.updateSettings s).1.soundRotationOn = r.soundRotationOn ∧
    (r.updateSettings s).1.seekStartTime = r.seekStartTime := by
  unfold Room.updateSettings
  cases h1 : s.seekTimeLimit with
  | none =>
    cases h2 : s.soundPlaysPerPlayer with
    | none => exact ⟨rfl, rfl, rfl, rfl, rfl, rfl, rfl, rfl, rfl⟩
    | some o2 =>
      cases o2 with
      | none => exact ⟨rfl, rfl, rfl, rfl, rfl, rfl, rfl, rfl, rfl⟩
      | some v2 =>
        dsimp only
        split_ifs <;> exact ⟨rfl, rfl, rfl, rfl, rfl, rfl, rfl, rfl, rfl⟩
  | some o1 =>
    cases o1 with
    | none => exact ⟨rfl, rfl, rfl, rfl, rfl, rfl, rfl, rfl, rfl⟩
    | some v1 =>
      dsimp only
      split_ifs with hv1
      · cases h2 : s.soundPlaysPerPlayer with
        | none => exact ⟨rfl, rfl, rfl, rfl, rfl, rfl, rfl, rfl, rfl⟩
        | some o2 =>
          cases o2 with
          | none => exact ⟨rfl, rfl, rfl, rfl, rfl, rfl, rfl, rfl, rfl⟩
          | some v2 =>
            dsimp only
            split_ifs <;> exact ⟨rfl, rfl, rfl, rfl, rfl, rfl, rfl, rfl, rfl⟩
      · exact ⟨rfl, rfl, rfl, rfl, rfl, rfl, rfl, rfl, rfl⟩

theorem updateSettings_playsPos (r : Room) (s : Settings)
    (h : 1 ≤ r.soundPlaysPerPlayer) :
    1 ≤ (r.updateSettings s).1.soundPlaysPerPlayer := by
  unfold Room.updateSettings
  cases h1 : s.seekTimeLimit with
  | none =>
    cases h2 : s.soundPlaysPerPlayer with
    | none => exact h
    | some o2 =>
      cases o2 with
      | none => exact h
      | some v2 =>
        dsimp only
        split_ifs with hv
        · show 1 ≤ v2.toNat
          have := hv.1
          unfold MIN_SOUND_PLAYS at this
          omega
        · exact h
  | some o1 =>
    cases o1 with
    | none => exact h
    | some v1 =>
      dsimp only
      split_ifs with hv1
      · cases h2 : s.soundPlaysPerPlayer with
        | none => exact h
        | some o2 =>
          cases o2 with
          | none => exact h
          | some v2 =>
            dsimp only
            split_ifs with hv
            · show 1 ≤ v2.toNat
              have := hv.1
              unfold MIN_SOUND_PLAYS at this
              omega
            · exact h
      · exact h

theorem inv_updateSettings {r : Room} (hr : Inv r)
    (hgw : r.gameState = GameState.Waiting) (s : Settings) :
    Inv (r.updateSettings s).1 := by
  have hfr := updateSettings_frame r s
  constructor
  · rw [hfr.1]; exact hr.idsNodup
  · rw [hfr.1]; exact hr.hiderUnique
  · exact updateSettings_playsPos r s hr.playsPos
  · intro p hp
    rw [hfr.1] at hp
    rw [hr.waitingZero hgw p hp]
    exact Nat.zero_le _
  · intro _ p hp
    rw [hfr.1] at hp
    exact hr.waitingZero hgw p hp
  · rw [hfr.2.2.1]; exact hr.queueNodup
  · intro id hid
    rw [hfr.2.2.1] at hid
    rw [hfr.1]
    exact hr.queueGood id hid
  · intro a ha
    rw [hfr.2.2.2.1] at ha
    rw [hfr.1, hfr.2.2.1]
    exact hr.activeGood a ha
  · intro _
    rw [hfr.2.2.1, hfr.2.2.2.1]
    exact hr.revealOnly (by rw [hgw]; simp)
  · intro hcf
    rw [hfr.2.2.2.2.2.1] at hcf
    rw [hfr.2.1]
    exact hr.countdownHiding hcf

theorem inv_handleUpdateSettings {r : Room} (hr : Inv r) (i : SocketId) (s : Settings) :
    Inv (handleUpdateSettings r i s).1 := by
  unfold handleUpdateSettings
  cases hx : r.getPlayer i with
  | none => exact hr
  | some p =>
    dsimp only
    by_cases hrole : p.role ≠ Role.Hider
    · rw [if_pos hrole]; exact hr
    · rw [if_neg hrole]
      by_cases hstate : r.gameState ≠ GameState.Waiting
      · rw [if_pos hstate]; exact hr
      · rw [if_neg hstate]
        have hgw : r.gameState = GameState.Waiting := by
          by_contra hc; exact hstate hc
        have hinv := inv_updateSettings hr hgw s
        rcases hu : r.updateSettings s with ⟨r1, upd, err⟩
        have hr1 : r1 = (r.updateSettings s).1 := by rw [hu]
        cases err with
        | none =>
          show Inv r1
          rw [hr1]; exact hinv
        | some e =>
          show Inv r1
          rw [hr1]; exact hinv

theorem inv_startHidingPhase {r r' : Room} (hr : Inv r)
    (h : r.startHidingPhase = .ok r') : Inv r' := by
  unfold Room.startHidingPhase at h
  split at h
  · exact absurd h (by simp)
  · split at h
    · exact absurd h (by simp)
    · rename_i hg _
      have hgw : r.gameState = GameState.Waiting := by
        by_contra hc; exact hg hc
      have hro := hr.revealOnly (by rw [hgw]; simp)
      injection h with h'
      subst h'
      constructor
      · show ((r.players.map Player.resetForNewGame).map Player.id).Nodup
        rw [List.map_map]
        exact hr.idsNodup
      · exact hiderUnique_map (fun p => rfl) (fun p => rfl) hr.hiderUnique
      · exact hr.playsPos
      · intro p hp
        rcases List.mem_map.mp hp with ⟨p0, _, rfl⟩
        exact Nat.zero_le _
      · intro hW
        have hW' : GameState.Hiding = GameState.Waiting := hW
        simp at hW'
      · exact hr.queueNodup
      · intro id hid
        have hid' : id ∈ r.unfoundPlayerQueue := hid
        rw [hro.1] at hid'
        exact absurd hid' (by simp)
      · intro a ha
        have ha' : r.activeUnfoundPlayerId = some a := ha
        rw [hro.2] at ha'
        exact absurd ha' (by simp)
      · intro _
        exact ⟨hro.1, hro.2⟩
      · intro hcf
        have hcf' : false = true := hcf
        simp at hcf'

theorem inv_confirmPlayerHidden {r r' : Room} (hr : Inv r) {i : SocketId}
    (h : r.confirmPlayerHidden i = .ok r') : Inv r' := by
  unfold Room.confirmPlayerHidden at h
  cases hx : r.getPlayer i with
  | none => rw [hx] at h; simp at h
  | some p =>
    rw [hx] at h
    dsimp only at h
    split at h
    · exact absurd h (by simp)
    · rename_i hg
      have hgh : r.gameState = GameState.Hiding := by
        by_contra hc; exact hg hc
      have hro := hr.revealOnly (by rw [hgh]; simp)
      split at h
      · injection h with h'
        subst h'
        exact hr
      · have hinv1 : Inv { r with
            players := updatePlayer r.players i (fun p => { p with isReady := true }) } := by
          constructor
          · show ((updatePlayer r.players i
                (fun p => { p with isReady := true })).map Player.id).Nodup
            rw [updatePlayer_ids r.players i (fun p => { p with isReady := true })
              (fun p => rfl)]
            exact hr.idsNodup
          · exact hiderUnique_updatePlayer r.players i
              (fun p => { p with isReady := true })
              (fun p => rfl) (fun p => rfl) hr.hiderUnique
          · exact hr.playsPos
          · intro q hq
            rcases mem_updatePlayer hq with ⟨q0, hq0, rfl⟩
            have := hr.soundsLe q0 hq0
            by_cases hc : q0.id = i <;> simp [hc] <;> exact this
          · intro hW
            have hW' : r.gameState = GameState.Waiting := hW
            rw [hgh] at hW'
            exact absurd hW' (by simp)
          · exact hr.queueNodup
          · intro id hid
            have hid' : id ∈ r.unfoundPlayerQueue := hid
            rw [hro.1] at hid'
            exact absurd hid' (by simp)
          · intro a ha
            have ha' : r.activeUnfoundPlayerId = some a := ha
            rw [hro.2] at ha'
            exact absurd ha' (by simp)
          · intro _
            exact ⟨hro.1, hro.2⟩
          · intro hcf
            have hcf' : r.preSeekCountdownOn = true := hcf
            have := hr.countdownHiding hcf'
            exact this
      -- the two success branches: with and without the countdown start
        split at h <;> injection h with h' <;> subst h'
        · unfold Room.startPreSeekCountdown
          split
          · exact hinv1
          · constructor
            · exact hinv1.idsNodup
            · exact hinv1.hiderUnique
            · exact hinv1.playsPos
            · exact hinv1.soundsLe
            · intro hW
              have hW' : r.gameState = GameState.Waiting := hW
              rw [hgh] at hW'
              exact absurd hW' (by simp)
            · exact hinv1.queueNodup
            · exact hinv1.queueGood
            · exact hinv1.activeGood
            · intro _
              exact ⟨hro.1, hro.2⟩
            · intro _
              exact hgh
        · exact hinv1

/-- Variant of `inv_congr` for results whose countdown timer is off. -/
theorem inv_congr_off (r : Room) {r' : Room}
    (hp : r'.players = r.players) (hg : r'.gameState = r.gameState)
    (hsp : r'.soundPlaysPerPlayer = r.soundPlaysPerPlayer)
    (hq : r'.unfoundPlayerQueue = r.unfoundPlayerQueue)
    (ha : r'.activeUnfoundPlayerId = r.activeUnfoundPlayerId)
    (hw : r'.winner = r.winner) (hc : r'.preSeekCountdownOn = false)
    (hr : Inv r) : Inv r' := by
  constructor
  · rw [hp]; exact hr.idsNodup
  · rw [hp]; exact hr.hiderUnique
  · rw [hsp]; exact hr.playsPos
  · rw [hp, hsp]; exact hr.soundsLe
  · rw [hg, hp]; exact hr.waitingZero
  · rw [hq]; exact hr.queueNodup
  · rw [hq, hp]; exact hr.queueGood
  · rw [ha, hp, hq]; exact hr.activeGood
  · rw [hg, hw, hq, ha]; exact hr.revealOnly
  · intro hcf; rw [hc] at hcf; simp at hcf

theorem startSeekingPhase_eq (r : Room) (now : Nat)
    (hne : r.gameState ≠ GameState.Seeking) :
    r.startSeekingPhase now =
      { r with gameState := GameState.Seeking, seekStartTime := some now,
               nextPlayerIndexToPlay := 0,
               players := r.players.map Player.resetForSeeking,
               seekTimerOn := true, soundRotationOn := true } := by
  unfold Room.startSeekingPhase Room.startSeekTimer
  rw [if_neg hne]
  dsimp only
  split
  · rename_i hst
    have hst' : r.seekTimerOn = true := hst
    rw [← hst']
  · rfl

theorem inv_startSeekingPhase {r : Room} (hr : Inv r)
    (hh : r.gameState = GameState.Hiding) (hcd : r.preSeekCountdownOn = false)
    (now : Nat) : Inv (r.startSeekingPhase now) := by
  rw [startSeekingPhase_eq r now (by rw [hh]; simp)]
  have hro := hr.revealOnly (by rw [hh]; simp)
  constructor
  · show ((r.players.map Player.resetForSeeking).map Player.id).Nodup
    rw [List.map_map]; exact hr.idsNodup
  · exact hiderUnique_map (fun p => rfl) (fun p => rfl) hr.hiderUnique
  · exact hr.playsPos
  · intro p hp
    rcases List.mem_map.mp hp with ⟨p0, _, rfl⟩
    exact Nat.zero_le _
  · intro hW
    have hW' : GameState.Seeking = GameState.Waiting := hW
    simp at hW'
  · exact hr.queueNodup
  · intro id hid
    have hid' : id ∈ r.unfoundPlayerQueue := hid
    rw [hro.1] at hid'
    simp at hid'
  · intro a ha
    have ha' : r.activeUnfoundPlayerId = some a := ha
    rw [hro.2] at ha'
    simp at ha'
  · intro _
    exact ⟨hro.1, hro.2⟩
  · intro hcf
    have hcf' : r.preSeekCountdownOn = true := hcf
    rw [hcd] at hcf'
    simp at hcf'

theorem inv_preSeekCountdownTick {r : Room} (hr : Inv r)
    (hon : r.preSeekCountdownOn = true) (now : Nat) :
    Inv (r.preSeekCountdownTick now) := by
  have hh := hr.countdownHiding hon
  unfold Room.preSeekCountdownTick
  dsimp only
  split
  · have hr2 : Inv { r with
        preSeekCountdownValue := r.preSeekCountdownValue - 1,
        preSeekCountdownOn := false } :=
      inv_congr_off r rfl rfl rfl rfl rfl rfl rfl hr
    exact inv_startSeekingPhase hr2 hh rfl now
  · exact inv_congr r rfl rfl rfl rfl rfl rfl rfl hr

theorem inv_seekTimerTick {r : Room} (hr : Inv r) (now : Nat) :
    Inv (r.seekTimerTick now) := by
  unfold Room.seekTimerTick
  split
  · split
    · exact inv_endGame hr _
    · exact hr
  · exact inv_congr r rfl rfl rfl rfl rfl rfl rfl hr

theorem mem_eligiblePlayers {r : Room} {q : Player} (hq : q ∈ r.eligiblePlayers) :
    q ∈ r.players ∧ q.isFound = false ∧ q.soundsPlayed < r.soundPlaysPerPlayer := by
  unfold Room.eligiblePlayers at hq
  have h1 := List.mem_of_mem_filter hq
  have h2 := (List.mem_filter.mp hq).2
  simp only [Bool.and_eq_true, Bool.not_eq_true', decide_eq_true_eq] at h2
  exact ⟨mem_sortByNumber.mp h1, h2.1, h2.2⟩

/-- A sound cue sent to an eligible player preserves the invariant. -/
theorem inv_bump {r : Room} (hr : Inv r) (hgs : r.gameState = GameState.Seeking)
    (sel : Player) (hselmem : sel ∈ r.players)
    (hsellt : sel.soundsPlayed < r.soundPlaysPerPlayer) (n : Nat) :
    Inv { r with
      players := (updatePlayer r.players sel.id
        (fun p => { p with soundsPlayed := p.soundsPlayed + 1 })),
      nextPlayerIndexToPlay := n, soundRotationOn := true } := by
  have hro := hr.revealOnly (by rw [hgs]; simp)
  constructor
  · show ((updatePlayer r.players sel.id _).map Player.id).Nodup
    rw [updatePlayer_ids r.players sel.id
      (fun p => { p with soundsPlayed := p.soundsPlayed + 1 }) (fun p => rfl)]
    exact hr.idsNodup
  · exact hiderUnique_updatePlayer r.players sel.id
      (fun p => { p with soundsPlayed := p.soundsPlayed + 1 })
      (fun p => rfl) (fun p => rfl) hr.hiderUnique
  · exact hr.playsPos
  · intro q hq
    rcases mem_updatePlayer hq with ⟨q0, hq0, rfl⟩
    by_cases hc : q0.id = sel.id
    · have hq0sel : q0 = sel :=
        List.inj_on_of_nodup_map hr.idsNodup hq0 hselmem hc
      rw [if_pos hc]
      show q0.soundsPlayed + 1 ≤ r.soundPlaysPerPlayer
      rw [hq0sel]
      omega
    · rw [if_neg hc]
      exact hr.soundsLe q0 hq0
  · intro hW
    have hW' : r.gameState = GameState.Waiting := hW
    rw [hgs] at hW'
    simp at hW'
  · exact hr.queueNodup
  · intro id hid
    have hid' : id ∈ r.unfoundPlayerQueue := hid
    rw [hro.1] at hid'
    simp at hid'
  · intro a ha
    have ha' : r.activeUnfoundPlayerId = some a := ha
    rw [hro.2] at ha'
    simp at ha'
  · intro _
    exact ⟨hro.1, hro.2⟩
  · intro hcf
    have hcf' : r.preSeekCountdownOn = true := hcf
    have := hr.countdownHiding hcf'
    rw [hgs] at this
    simp at this

theorem inv_scheduleNextSound {r : Room} (hr : Inv r) (now : Nat) :
    Inv (r.scheduleNextSound now).1 := by
  unfold Room.scheduleNextSound
  split
  · exact inv_congr r rfl rfl rfl rfl rfl rfl rfl hr
  · rename_i hseek
    have hgs : r.gameState = GameState.Seeking := by
      by_contra hc; exact hseek hc
    dsimp only
    split
    · exact inv_congr r rfl rfl rfl rfl rfl rfl rfl hr
    · split
      · split
        · split
          · -- the selected eligible player receives a cue
            refine inv_bump hr hgs _ ?_ ?_ _
            · exact (mem_eligiblePlayers (List.get_mem _ _ _)).1
            · exact (mem_eligiblePlayers (List.get_mem _ _ _)).2.2
          · exact inv_congr r rfl rfl rfl rfl rfl rfl rfl hr
        · exact inv_congr r rfl rfl rfl rfl rfl rfl rfl hr
      · exact inv_congr r rfl rfl rfl rfl rfl rfl rfl hr

theorem updatePlayer_mem_of_ne {ps : List Player} {i : SocketId} {f : Player → Player}
    {p : Player} (hp : p ∈ ps) (hne : p.id ≠ i) : p ∈ updatePlayer ps i f := by
  unfold updatePlayer
  have := List.mem_map_of_mem (fun q => if q.id = i then f q else q) hp
  simpa [hne] using this

theorem inv_setFound_seeking {r : Room} (hr : Inv r)
    (hgs : r.gameState = GameState.Seeking) (i : SocketId) :
    Inv { r with players := (updatePlayer r.players i
      (fun p => { p with isFound := true })) } := by
  have hro := hr.revealOnly (by rw [hgs]; simp)
  constructor
  · show ((updatePlayer r.players i _).map Player.id).Nodup
    rw [updatePlayer_ids r.players i (fun p => { p with isFound := true }) (fun p => rfl)]
    exact hr.idsNodup
  · exact hiderUnique_updatePlayer r.players i (fun p => { p with isFound := true })
      (fun p => rfl) (fun p => rfl) hr.hiderUnique
  · exact hr.playsPos
  · intro q hq
    rcases mem_updatePlayer hq with ⟨q0, hq0, rfl⟩
    by_cases hc : q0.id = i
    · rw [if_pos hc]
      exact hr.soundsLe q0 hq0
    · rw [if_neg hc]
      exact hr.soundsLe q0 hq0
  · intro hW
    have hW' : r.gameState = GameState.Waiting := hW
    rw [hgs] at hW'
    simp at hW'
  · exact hr.queueNodup
  · intro id hid
    have hid' : id ∈ r.unfoundPlayerQueue := hid
    rw [hro.1] at hid'
    simp at hid'
  · intro a ha
    have ha' : r.activeUnfoundPlayerId = some a := ha
    rw [hro.2] at ha'
    simp at ha'
  · intro _
    exact ⟨hro.1, hro.2⟩
  · intro hcf
    have hcf' : r.preSeekCountdownOn = true := hcf
    have := hr.countdownHiding hcf'
    rw [hgs] at this
    simp at this

theorem inv_markPlayerFound {r r' : Room} (hr : Inv r) {i : SocketId}
    (h : r.markPlayerFound i = .ok r') : Inv r' := by
  unfold Room.markPlayerFound at h
  cases hx : r.getPlayer i with
  | none => rw [hx] at h; simp at h
  | some p =>
    rw [hx] at h
    dsimp only at h
    split at h
    · injection h with h'
      subst h'
      exact hr
    · split at h
      · simp at h
      · rename_i hnf hcond
        split at h
        · -- Seeking: the found-mark may end the game with winner = Seekers
          rename_i hseek1
          have hgs : r.gameState = GameState.Seeking := hseek1
          injection h with h'
          subst h'
          exact inv_checkSeekerWin (inv_setFound_seeking hr hgs i)
        · -- GameOver Hider-win reveal
          rename_i hnseek
          have hnseek' : r.gameState ≠ GameState.Seeking := hnseek
          have hGO : r.gameState = GameState.GameOver ∧ r.winner = some Winner.Hider := by
            by_contra hcgo
            exact hcond ⟨hnseek', hcgo⟩
          have hcdoff : ∀ {b : Bool}, r.preSeekCountdownOn = b → b = true → False := by
            intro b hb htrue
            rw [htrue] at hb
            have := hr.countdownHiding hb
            rw [hGO.1] at this
            simp at this
          split at h
          · -- the active reveal player was found: activate the next one
            rename_i hact
            have hact' : r.activeUnfoundPlayerId = some i := hact
            have hagood := hr.activeGood i hact'
            have hinq : i ∉ r.unfoundPlayerQueue := hagood.2
            injection h with h'
            subst h'
            unfold Room.activateNextUnfoundPlayer
            rw [if_pos (show _ = GameState.GameOver from hGO.1)]
            set r1 : Room := { r with players := (updatePlayer r.players i
              (fun p => { p with isFound := true })) } with hr1
            have hq1 : r1.unfoundPlayerQueue = r.unfoundPlayerQueue := rfl
            have hqgood : ∀ id ∈ r1.unfoundPlayerQueue,
                ∃ q ∈ r1.players, q.id = id ∧ q.isFound = false := by
              intro id hid
              have hid' : id ∈ r.unfoundPlayerQueue := hid
              rcases hr.queueGood id hid' with ⟨q, hq, hqid, hqnf⟩
              have hqne : q.id ≠ i := by
                intro hcon
                rw [hqid] at hcon
                subst hcon
                exact hinq hid'
              exact ⟨q, updatePlayer_mem_of_ne hq hqne, hqid, hqnf⟩
            have hgood := activateFrom_good r1 r1.unfoundPlayerQueue
              (by rw [hq1]; exact hr.queueNodup) hqgood
            have hfr := activateFrom_frame r1 r1.unfoundPlayerQueue
            have hpl := activateFrom_players r1 r1.unfoundPlayerQueue
            constructor
            · rw [hpl]
              show ((updatePlayer r.players i _).map Player.id).Nodup
              rw [updatePlayer_ids r.players i
                (fun p => { p with isFound := true }) (fun p => rfl)]
              exact hr.idsNodup
            · rw [hpl]
              exact hiderUnique_updatePlayer r.players i
                (fun p => { p with isFound := true })
                (fun p => rfl) (fun p => rfl) hr.hiderUnique
            · rw [hfr.2.2.2.1]; exact hr.playsPos
            · rw [hpl, hfr.2.2.2.1]
              intro q hq
              rcases mem_updatePlayer hq with ⟨q0, hq0, rfl⟩
              by_cases hc : q0.id = i
              · rw [if_pos hc]; exact hr.soundsLe q0 hq0
              · rw [if_neg hc]; exact hr.soundsLe q0 hq0
            · rw [hfr.1]
              intro hW
              have hW' : r.gameState = GameState.Waiting := hW
              rw [hGO.1] at hW'
              simp at hW'
            · exact hgood.2.1
            · intro id hid
              rw [hpl]
              exact hgood.1 id hid
            · intro a ha
              rw [hpl]
              exact hgood.2.2 a ha
            · rw [hfr.1, hfr.2.1]
              intro hcontra
              exact absurd ⟨show r1.gameState = GameState.GameOver from hGO.1,
                show r1.winner = some Winner.Hider from hGO.2⟩ hcontra
            · rw [hfr.2.2.2.2.2.1]
              intro hcf
              exact absurd (hr.countdownHiding hcf)
                (by rw [hGO.1]; simp)
          · -- a queued (non-active) player was found: drop them from the queue
            rename_i hactne
            injection h with h'
            subst h'
            constructor
            · show ((updatePlayer r.players i _).map Player.id).Nodup
              rw [updatePlayer_ids r.players i
                (fun p => { p with isFound := true }) (fun p => rfl)]
              exact hr.idsNodup
            · exact hiderUnique_updatePlayer r.players i
                (fun p => { p with isFound := true })
                (fun p => rfl) (fun p => rfl) hr.hiderUnique
            · exact hr.playsPos
            · intro q hq
              rcases mem_updatePlayer hq with ⟨q0, hq0, rfl⟩
              by_cases hc : q0.id = i
              · rw [if_pos hc]; exact hr.soundsLe q0 hq0
              · rw [if_neg hc]; exact hr.soundsLe q0 hq0
            · intro hW
              have hW' : r.gameState = GameState.Waiting := hW
              rw [hGO.1] at hW'
              simp at hW'
            · show (r.unfoundPlayerQueue.erase i).Nodup
              exact hr.queueNodup.erase i
            · intro id hid
              have hid' : id ∈ r.unfoundPlayerQueue.erase i := hid
              rcases (hr.queueNodup.mem_erase_iff).mp hid' with ⟨hne, hmem⟩
              rcases hr.queueGood id hmem with ⟨q, hq, hqid, hqnf⟩
              have hqne : q.id ≠ i := by rw [hqid]; exact hne
              exact ⟨q, updatePlayer_mem_of_ne hq hqne, hqid, hqnf⟩
            · intro a ha
              have ha' : r.activeUnfoundPlayerId = some a := ha
              have hane : a ≠ i := by
                intro hcon
                subst hcon
                exact hactne ha'
              rcases hr.activeGood a ha' with ⟨⟨q, hq, hqid, hqnf⟩, hnq⟩
              refine ⟨⟨q, updatePlayer_mem_of_ne hq (by rw [hqid]; exact hane),
                hqid, hqnf⟩, ?_⟩
              intro hmem
              exact hnq ((List.erase_sublist i r.unfoundPlayerQueue).subset hmem)
            · intro hcontra
              exact absurd ⟨show _ = GameState.GameOver from hGO.1,
                show _ = some Winner.Hider from hGO.2⟩ hcontra
            · intro hcf
              exact absurd (hr.countdownHiding hcf) (by rw [hGO.1]; simp)

/-- Pointwise description of the players produced by the re-assignment loop
of `resetForNewGame`: identity fields preserved, status fields cleared, fresh
sound URLs assigned. -/
def Reassigned (p q : Player) : Prop :=
  q.id = p.id ∧ q.number = p.number ∧ q.role = p.role ∧
  q.isReady = false ∧ q.isFound = false ∧ q.soundsPlayed = 0 ∧
  q.uniqueAnimalSoundURL.isSome = true ∧ q.uniqueUnfoundSoundURL.isSome = true

theorem reassignLoop_forall2 (oracle : Nat → Picks) :
    ∀ (ps : List Player) (r : Room) (k : Nat),
    List.Forall₂ Reassigned ps (reassignLoop r oracle k ps).2 := by
  intro ps
  induction ps with
  | nil => intro r k; exact List.Forall₂.nil
  | cons p ps ih =>
    intro r k
    refine List.Forall₂.cons ?_ (ih _ _)
    have hs := assignUniqueSounds_snd r p.resetForNewGame (oracle k)
    exact ⟨hs.1, hs.2.1, hs.2.2.1, hs.2.2.2.1, hs.2.2.2.2.1,
      hs.2.2.2.2.2.1, hs.2.2.2.2.2.2.1, hs.2.2.2.2.2.2.2⟩

theorem forall2_mem_right {R : Player → Player → Prop} :
    ∀ {ps qs : List Player}, List.Forall₂ R ps qs →
      ∀ q ∈ qs, ∃ p ∈ ps, R p q := by
  intro ps qs h
  induction h with
  | nil => intro q hq; exact absurd hq (by simp)
  | cons hR _ ih =>
    intro q hq
    rcases List.mem_cons.mp hq with rfl | hq'
    · exact ⟨_, List.mem_cons_self _ _, hR⟩
    · rcases ih q hq' with ⟨p, hp, hpq⟩
      exact ⟨p, List.mem_cons_of_mem _ hp, hpq⟩

theorem forall2_reassigned_ids :
    ∀ {ps qs : List Player}, List.Forall₂ Reassigned ps qs →
      qs.map Player.id = ps.map Player.id := by
  intro ps qs h
  induction h with
  | nil => rfl
  | cons hR _ ih =>
    simp only [List.map_cons, ih, hR.1]

theorem reassignLoop_room (oracle : Nat → Picks) :
    ∀ (ps : List Player) (r : Room) (k : Nat),
    (reassignLoop r oracle k ps).1.players = r.players ∧
    (reassignLoop r oracle k ps).1.gameState = r.gameState ∧
    (reassignLoop r oracle k ps).1.soundPlaysPerPlayer = r.soundPlaysPerPlayer ∧
    (reassignLoop r oracle k ps).1.unfoundPlayerQueue = r.unfoundPlayerQueue ∧
    (reassignLoop r oracle k ps).1.activeUnfoundPlayerId = r.activeUnfoundPlayerId ∧
    (reassignLoop r oracle k ps).1.winner = r.winner ∧
    (reassignLoop r oracle k ps).1.preSeekCountdownOn = r.preSeekCountdownOn ∧
    (reassignLoop r oracle k ps).1.seekTimerOn = r.seekTimerOn ∧
    (reassignLoop r oracle k ps).1.soundRotationOn = r.soundRotationOn ∧
    (reassignLoop r oracle k ps).1.seekStartTime = r.seekStartTime ∧
    (reassignLoop r oracle k ps).1.seekTimeLimit = r.seekTimeLimit ∧
    (reassignLoop r oracle k ps).1.nextPlayerIndexToPlay = r.nextPlayerIndexToPlay := by
  intro ps
  induction ps with
  | nil =>
    intro r k
    exact ⟨rfl, rfl, rfl, rfl, rfl, rfl, rfl, rfl, rfl, rfl, rfl, rfl⟩
  | cons p ps ih =>
    intro r k
    have hrec := ih (r.assignUniqueSounds p.resetForNewGame (oracle k)).1 (k + 1)
    exact hrec

/-- Every sound currently in the assigned sets after the loop is either a
leftover from the starting sets or a sound assigned to one of the produced
players. -/
theorem reassignLoop_sets (oracle : Nat → Picks) :
    ∀ (ps : List Player) (r : Room) (k : Nat),
    (∀ s ∈ (reassignLoop r oracle k ps).1.assignedAnimalSounds,
      s ∈ r.assignedAnimalSounds ∨
      ∃ q ∈ (reassignLoop r oracle k ps).2, q.uniqueAnimalSoundURL = some s) ∧
    (∀ s ∈ (reassignLoop r oracle k ps).1.assignedUnfoundSounds,
      s ∈ r.assignedUnfoundSounds ∨
      ∃ q ∈ (reassignLoop r oracle k ps).2, q.uniqueUnfoundSoundURL = some s) := by
  intro ps
  induction ps with
  | nil =>
    intro r k
    exact ⟨fun s hs => Or.inl hs, fun s hs => Or.inl hs⟩
  | cons p ps ih =>
    intro r k
    have hrec := ih (r.assignUniqueSounds p.resetForNewGame (oracle k)).1 (k + 1)
    constructor
    · intro s hs
      rcases (hrec.1 s hs) with hold | ⟨q, hq, hqs⟩
      · -- in the set after one assignment: the old set or the fresh sound
        have hold' : s ∈ setAdd r.assignedAnimalSounds
            (((r.assignUniqueSounds p.resetForNewGame (oracle k)).2.uniqueAnimalSoundURL).getD "") := by
          exact hold
        rcases setAdd_mem hold' with rfl | holder
        · right
          refine ⟨(r.assignUniqueSounds p.resetForNewGame (oracle k)).2,
            List.mem_cons_self _ _, ?_⟩
          cases hopt : (r.assignUniqueSounds p.resetForNewGame (oracle k)).2.uniqueAnimalSoundURL with
          | none =>
            have := (assignUniqueSounds_snd r p.resetForNewGame (oracle k)).2.2.2.2.2.2.1
            rw [hopt] at this
            simp at this
          | some a => simp
        · exact Or.inl holder
      · exact Or.inr ⟨q, List.mem_cons_of_mem _ hq, hqs⟩
    · intro s hs
      rcases (hrec.2 s hs) with hold | ⟨q, hq, hqs⟩
      · have hold' : s ∈ setAdd r.assignedUnfoundSounds
            (((r.assignUniqueSounds p.resetForNewGame (oracle k)).2.uniqueUnfoundSoundURL).getD "") := by
          exact hold
        rcases setAdd_mem hold' with rfl | holder
        · right
          refine ⟨(r.assignUniqueSounds p.resetForNewGame (oracle k)).2,
            List.mem_cons_self _ _, ?_⟩
          cases hopt : (r.assignUniqueSounds p.resetForNewGame (oracle k)).2.uniqueUnfoundSoundURL with
          | none =>
            have := (assignUniqueSounds_snd r p.resetForNewGame (oracle k)).2.2.2.2.2.2.2
            rw [hopt] at this
            simp at this
          | some a => simp
        · exact Or.inl holder
      · exact Or.inr ⟨q, List.mem_cons_of_mem _ hq, hqs⟩

theorem inv_resetForNewGame {r : Room} (hr : Inv r) (oracle : Nat → Picks) :
    Inv (r.resetForNewGame oracle) := by
  unfold Room.resetForNewGame
  set r3 : Room := { r.clearGameIntervals with
      gameState := GameState.Waiting, winner := none,
      seekStartTime := none, activeUnfoundPlayerId := none,
      unfoundPlayerQueue := [],
      assignedAnimalSounds := [], assignedUnfoundSounds := [] } with hr3
  have hfa := reassignLoop_forall2 oracle r3.players r3 0
  have hids := forall2_reassigned_ids hfa
  have hr3p : r3.players = r.players := rfl
  constructor
  · show ((reassignLoop r3 oracle 0 r3.players).2.map Player.id).Nodup
    rw [hids, hr3p]
    exact hr.idsNodup
  · intro p hp q hq hpr hqr
    rcases forall2_mem_right hfa p hp with ⟨p0, hp0, hp0R⟩
    rcases forall2_mem_right hfa q hq with ⟨q0, hq0, hq0R⟩
    rw [hp0R.1, hq0R.1]
    have hp0' : p0 ∈ r.players := hp0
    have hq0' : q0 ∈ r.players := hq0
    exact hr.hiderUnique p0 hp0' q0 hq0'
      (by rw [← hp0R.2.2.1]; exact hpr) (by rw [← hq0R.2.2.1]; exact hqr)
  · have := (reassignLoop_room oracle r3.players r3 0).2.2.1
    show 1 ≤ (reassignLoop r3 oracle 0 r3.players).1.soundPlaysPerPlayer
    rw [this]
    exact hr.playsPos
  · intro p hp
    rcases forall2_mem_right hfa p hp with ⟨p0, _, hp0R⟩
    rw [hp0R.2.2.2.2.2.1]
    exact Nat.zero_le _
  · intro _ p hp
    rcases forall2_mem_right hfa p hp with ⟨p0, _, hp0R⟩
    exact hp0R.2.2.2.2.2.1
  · show ((reassignLoop r3 oracle 0 r3.players).1.unfoundPlayerQueue).Nodup
    rw [(reassignLoop_room oracle r3.players r3 0).2.2.2.1]
    exact List.nodup_nil
  · intro id hid
    have hid' : id ∈ (reassignLoop r3 oracle 0 r3.players).1.unfoundPlayerQueue := hid
    rw [(reassignLoop_room oracle r3.players r3 0).2.2.2.1] at hid'
    have : id ∈ ([] : List SocketId) := hid'
    simp at this
  · intro a ha
    have ha' : (reassignLoop r3 oracle 0 r3.players).1.activeUnfoundPlayerId = some a := ha
    rw [(reassignLoop_room oracle r3.players r3 0).2.2.2.2.1] at ha'
    have : (none : Option SocketId) = some a := ha'
    simp at this
  · intro _
    constructor
    · show (reassignLoop r3 oracle 0 r3.players).1.unfoundPlayerQueue = []
      rw [(reassignLoop_room oracle r3.players r3 0).2.2.2.1]
    · show (reassignLoop r3 oracle 0 r3.players).1.activeUnfoundPlayerId = none
      rw [(reassignLoop_room oracle r3.players r3 0).2.2.2.2.1]
  · intro hcf
    have hcf' : (reassignLoop r3 oracle 0 r3.players).1.preSeekCountdownOn = true := hcf
    rw [(reassignLoop_room oracle r3.players r3 0).2.2.2.2.2.2.1] at hcf'
    have : false = true := hcf'
    simp at this

theorem inv_requestPlayAgain {r r' : Room} (hr : Inv r) {i : SocketId}
    {oracle : Nat → Picks} (h : r.requestPlayAgain i oracle = .ok r') : Inv r' := by
  unfold Room.requestPlayAgain at h
  split at h
  · simp at h
  · cases hx : r.getPlayer i with
    | none => rw [hx] at h; simp at h
    | some p =>
      rw [hx] at h
      dsimp only at h
      injection h with h'
      subst h'
      exact inv_resetForNewGame hr oracle

/-- Removing a player (and freeing their sounds) preserves the invariant
when the reveal queue and active player do not mention anyone. -/
theorem inv_filtered {r : Room} (hr : Inv r) (i : SocketId)
    (hro : r.unfoundPlayerQueue = [] ∧ r.activeUnfoundPlayerId = none)
    (sa su : List String) :
    Inv { r with assignedAnimalSounds := sa, assignedUnfoundSounds := su,
                 players := r.players.filter (fun p => p.id != i) } := by
  constructor
  · show ((r.players.filter (fun p => p.id != i)).map Player.id).Nodup
    exact hr.idsNodup.sublist ((List.filter_sublist r.players).map Player.id)
  · intro p hp q hq hpr hqr
    have hp' : p ∈ r.players.filter (fun p => p.id != i) := hp
    have hq' : q ∈ r.players.filter (fun p => p.id != i) := hq
    exact hr.hiderUnique p (List.mem_of_mem_filter hp') q (List.mem_of_mem_filter hq') hpr hqr
  · exact hr.playsPos
  · intro p hp
    have hp' : p ∈ r.players.filter (fun p => p.id != i) := hp
    exact hr.soundsLe p (List.mem_of_mem_filter hp')
  · intro hW p hp
    have hp' : p ∈ r.players.filter (fun p => p.id != i) := hp
    exact hr.waitingZero hW p (List.mem_of_mem_filter hp')
  · show r.unfoundPlayerQueue.Nodup
    exact hr.queueNodup
  · intro id hid
    have hid' : id ∈ r.unfoundPlayerQueue := hid
    rw [hro.1] at hid'
    simp at hid'
  · intro a ha
    have ha' : r.activeUnfoundPlayerId = some a := ha
    rw [hro.2] at ha'
    simp at ha'
  · intro _
    exact ⟨hro.1, hro.2⟩
  · intro hcf
    exact hr.countdownHiding hcf

/-- Removing the Hider while Waiting and promoting preserves the invariant. -/
theorem inv_remove_promote {r : Room} (hr : Inv r) (i : SocketId) (dp : Player)
    (hdpmem : dp ∈ r.players) (hdpid : dp.id = i) (hdphider : dp.role = Role.Hider)
    (hgw : r.gameState = GameState.Waiting)
    (sa su : List String) :
    Inv (Room.promoteNewHider { r with
        assignedAnimalSounds := sa,
        assignedUnfoundSounds := su,
        players := r.players.filter (fun p => p.id != i) }) := by
  have hro := hr.revealOnly (by rw [hgw]; simp)
  have hnohider : ∀ q ∈ r.players.filter (fun p => p.id != i), q.role ≠ Role.Hider := by
    intro q hq hcon
    have hqmem := List.mem_of_mem_filter hq
    have hqne : (q.id != i) = true := (List.mem_filter.mp hq).2
    have hqid : q.id = dp.id := hr.hiderUnique q hqmem dp hdpmem hcon hdphider
    rw [hdpid] at hqid
    simp [hqid] at hqne
  unfold Room.promoteNewHider
  split
  · exact inv_filtered hr i hro sa su
  · rename_i p0 t hsort
    constructor
    · show ((updatePlayer (r.players.filter (fun p => p.id != i)) p0.id _).map Player.id).Nodup
      rw [updatePlayer_ids (r.players.filter (fun p => p.id != i)) p0.id
        (fun p => { p with role := Role.Hider }) (fun p => rfl)]
      exact hr.idsNodup.sublist ((List.filter_sublist r.players).map Player.id)
    · intro a hma b hmb hahider hbhider
      rcases mem_updatePlayer hma with ⟨a0, ha0, rfl⟩
      rcases mem_updatePlayer hmb with ⟨b0, hb0, rfl⟩
      have haid : a0.id = p0.id := by
        by_contra hc
        rw [if_neg hc] at hahider
        exact hnohider a0 ha0 hahider
      have hbid : b0.id = p0.id := by
        by_contra hc
        rw [if_neg hc] at hbhider
        exact hnohider b0 hb0 hbhider
      have h1 : (if a0.id = p0.id then { a0 with role := Role.Hider } else a0).id = a0.id := by
        rw [if_pos haid]
      have h2 : (if b0.id = p0.id then { b0 with role := Role.Hider } else b0).id = b0.id := by
        rw [if_pos hbid]
      rw [h1, h2, haid, hbid]
    · exact hr.playsPos
    · intro q hq
      rcases mem_updatePlayer hq with ⟨q0, hq0, rfl⟩
      have hle := hr.soundsLe q0 (List.mem_of_mem_filter hq0)
      by_cases hc : q0.id = p0.id
      · rw [if_pos hc]; exact hle
      · rw [if_neg hc]; exact hle
    · intro _ q hq
      rcases mem_updatePlayer hq with ⟨q0, hq0, rfl⟩
      have h0 := hr.waitingZero hgw q0 (List.mem_of_mem_filter hq0)
      by_cases hc : q0.id = p0.id
      · rw [if_pos hc]; exact h0
      · rw [if_neg hc]; exact h0
    · show r.unfoundPlayerQueue.Nodup
      exact hr.queueNodup
    · intro id hid
      have hid' : id ∈ r.unfoundPlayerQueue := hid
      rw [hro.1] at hid'
      simp at hid'
    · intro a ha
      have ha' : r.activeUnfoundPlayerId = some a := ha
      rw [hro.2] at ha'
      simp at ha'
    · intro _
      exact ⟨hro.1, hro.2⟩
    · intro hcf
      have := hr.countdownHiding hcf
      exact this

theorem inv_removePlayer {r r' : Room} (hr : Inv r) {i : SocketId}
    (h : r.removePlayer i = (r', false)) : Inv r' := by
  unfold Room.removePlayer at h
  cases hx : r.getPlayer i with
  | none =>
    rw [hx] at h
    dsimp only at h
    have h1 : r = r' := congrArg Prod.fst h
    subst h1
    exact hr
  | some dp =>
    have hdp := getPlayer_some hx
    rw [hx] at h
    dsimp only at h
    set sa0 := (match dp.uniqueAnimalSoundURL with
      | some s => r.assignedAnimalSounds.erase s
      | none => r.assignedAnimalSounds) with hsa0
    set su0 := (match dp.uniqueUnfoundSoundURL with
      | some s => r.assignedUnfoundSounds.erase s
      | none => r.assignedUnfoundSounds) with hsu0
    split at h
    · -- room became empty: would be deleted, contradicting the `false`
      have h2 := congrArg Prod.snd h
      simp at h2
    · split at h
      · -- Waiting
        rename_i hne hgw
        have hgw' : r.gameState = GameState.Waiting := hgw
        have hro := hr.revealOnly (by rw [hgw']; simp)
        have h1 := congrArg Prod.fst h
        dsimp only at h1
        by_cases hwh : dp.role = Role.Hider
        · rw [if_pos hwh] at h1
          subst h1
          exact inv_remove_promote hr i dp hdp.1 hdp.2 hwh hgw' sa0 su0
        · rw [if_neg hwh] at h1
          subst h1
          exact inv_filtered hr i hro sa0 su0
      · split at h
        · -- Hiding
          rename_i hnw hh
          have hh' : r.gameState = GameState.Hiding := hh
          have hro := hr.revealOnly (by rw [hh']; simp)
          have hbase := inv_filtered hr i hro sa0 su0
          have h1 := congrArg Prod.fst h
          dsimp only at h1
          split at h1
          · subst h1
            unfold Room.startPreSeekCountdown
            split
            · exact hbase
            · constructor
              · exact hbase.idsNodup
              · exact hbase.hiderUnique
              · exact hbase.playsPos
              · exact hbase.soundsLe
              · intro hW
                have hW' : r.gameState = GameState.Waiting := hW
                rw [hh'] at hW'
                simp at hW'
              · exact hbase.queueNodup
              · intro id hid
                have hid' : id ∈ r.unfoundPlayerQueue := hid
                rw [hro.1] at hid'
                simp at hid'
              · intro a ha
                have ha' : r.activeUnfoundPlayerId = some a := ha
                rw [hro.2] at ha'
                simp at ha'
              · intro _
                exact ⟨hro.1, hro.2⟩
              · intro _
                exact hh'
          · subst h1
            exact hbase
        · split at h
          · -- Seeking
            rename_i hnw hnh hs
            have hs' : r.gameState = GameState.Seeking := hs
            have hro := hr.revealOnly (by rw [hs']; simp)
            have hbase := inv_filtered hr i hro sa0 su0
            have h1 := congrArg Prod.fst h
            dsimp only at h1
            by_cases hwh : dp.role = Role.Hider
            · rw [if_pos hwh] at h1
              subst h1
              exact inv_endGame hbase _
            · rw [if_neg hwh] at h1
              subst h1
              exact inv_checkSeekerWin hbase
          · split at h
            · -- GameOver with a Hider win: the reveal is adjusted
              rename_i hnw hnh hns hgoh
              have hgoh' : r.gameState = GameState.GameOver ∧
                  r.winner = some Winner.Hider := hgoh
              have h1 := congrArg Prod.fst h
              dsimp only at h1
              have hqgood : ∀ id ∈ r.unfoundPlayerQueue.erase i,
                  ∃ q ∈ r.players.filter (fun p => p.id != i),
                    q.id = id ∧ q.isFound = false := by
                intro id hid
                rcases (hr.queueNodup.mem_erase_iff).mp hid with ⟨hne', hmem⟩
                rcases hr.queueGood id hmem with ⟨q, hq, hqid, hqnf⟩
                refine ⟨q, ?_, hqid, hqnf⟩
                refine List.mem_filter.mpr ⟨hq, ?_⟩
                rw [hqid]
                simp [hne']
              split at h1
              · -- the departed player was the active reveal player
                rename_i hact
                subst h1
                unfold Room.activateNextUnfoundPlayer
                rw [if_pos (show _ = GameState.GameOver from hgoh'.1)]
                dsimp only
                set r3 : Room := { r with
                  players := r.players.filter (fun p => p.id != i),
                  assignedAnimalSounds := sa0, assignedUnfoundSounds := su0,
                  unfoundPlayerQueue := r.unfoundPlayerQueue.erase i } with hr3
                have hgood := activateFrom_good r3 (r.unfoundPlayerQueue.erase i)
                  (hr.queueNodup.erase i) hqgood
                have hfr := activateFrom_frame r3 (r.unfoundPlayerQueue.erase i)
                have hpl := activateFrom_players r3 (r.unfoundPlayerQueue.erase i)
                constructor
                · rw [hpl]
                  show ((r.players.filter (fun p => p.id != i)).map Player.id).Nodup
                  exact hr.idsNodup.sublist ((List.filter_sublist r.players).map Player.id)
                · rw [hpl]
                  intro p hp q hq hpr hqr
                  have hp' : p ∈ r.players.filter (fun p => p.id != i) := hp
                  have hq' : q ∈ r.players.filter (fun p => p.id != i) := hq
                  exact hr.hiderUnique p (List.mem_of_mem_filter hp')
                    q (List.mem_of_mem_filter hq') hpr hqr
                · rw [hfr.2.2.2.1]; exact hr.playsPos
                · rw [hpl, hfr.2.2.2.1]
                  intro p hp
                  have hp' : p ∈ r.players.filter (fun p => p.id != i) := hp
                  exact hr.soundsLe p (List.mem_of_mem_filter hp')
                · rw [hfr.1]
                  intro hW
                  have hW' : r.gameState = GameState.Waiting := hW
                  rw [hgoh'.1] at hW'
                  simp at hW'
                · exact hgood.2.1
                · intro id hid
                  rw [hpl]
                  exact hgood.1 id hid
                · intro a ha
                  rw [hpl]
                  exact hgood.2.2 a ha
                · rw [hfr.1, hfr.2.1]
                  intro hcontra
                  exact absurd ⟨show _ = GameState.GameOver from hgoh'.1,
                    show _ = some Winner.Hider from hgoh'.2⟩ hcontra
                · rw [hfr.2.2.2.2.2.1]
                  intro hcf
                  exact absurd (hr.countdownHiding hcf) (by rw [hgoh'.1]; simp)
              · -- the departed player was queued (or not in the reveal at all)
                rename_i hactne
                subst h1
                constructor
                · show ((r.players.filter (fun p => p.id != i)).map Player.id).Nodup
                  exact hr.idsNodup.sublist ((List.filter_sublist r.players).map Player.id)
                · intro p hp q hq hpr hqr
                  have hp' : p ∈ r.players.filter (fun p => p.id != i) := hp
                  have hq' : q ∈ r.players.filter (fun p => p.id != i) := hq
                  exact hr.hiderUnique p (List.mem_of_mem_filter hp')
                    q (List.mem_of_mem_filter hq') hpr hqr
                · exact hr.playsPos
                · intro p hp
                  have hp' : p ∈ r.players.filter (fun p => p.id != i) := hp
                  exact hr.soundsLe p (List.mem_of_mem_filter hp')
                · intro hW
                  have hW' : r.gameState = GameState.Waiting := hW
                  rw [hgoh'.1] at hW'
                  simp at hW'
                · show (r.unfoundPlayerQueue.erase i).Nodup
                  exact hr.queueNodup.erase i
                · exact hqgood
                · intro a ha
                  have ha' : r.activeUnfoundPlayerId = some a := ha
                  have hane : a ≠ i := by
                    intro hcon
                    subst hcon
                    exact hactne ha'
                  rcases hr.activeGood a ha' with ⟨⟨q, hq, hqid, hqnf⟩, hnq⟩
                  refine ⟨⟨q, List.mem_filter.mpr ⟨hq, by rw [hqid]; simp [hane]⟩,
                    hqid, hqnf⟩, ?_⟩
                  intro hmem
                  exact hnq ((List.erase_sublist i r.unfoundPlayerQueue).subset hmem)
                · intro hcontra
                  exact absurd ⟨show _ = GameState.GameOver from hgoh'.1,
                    show _ = some Winner.Hider from hgoh'.2⟩ hcontra
                · intro hcf
                  exact absurd (hr.countdownHiding hcf) (by rw [hgoh'.1]; simp)
            · -- any other GameOver state: nothing to adjust
              rename_i hnw hnh hns hngoh
              have hro := hr.revealOnly (fun hc => hngoh hc)
              have h1 := congrArg Prod.fst h
              dsimp only at h1
              subst h1
              exact inv_filtered hr i hro sa0 su0

/-- Every reachable room state satisfies the inductive invariant. -/
theorem inv_reachable {r : Room} (h : Reachable r) : Inv r := by
  induction h with
  | init i pk r hinit => exact inv_initRoom hinit
  | step r r' hreach hstep ih =>
    cases hstep with
    | join _ id pk hj => exact inv_addPlayer ih hj
    | disconnect _ id hd => exact inv_removePlayer ih hd
    | settings id s => exact inv_handleUpdateSettings ih id s
    | startHiding _ hs => exact inv_startHidingPhase ih hs
    | confirmHidden _ id hc => exact inv_confirmPlayerHidden ih hc
    | markFound _ id hm => exact inv_markPlayerFound ih hm
    | playAgain _ id oracle hp => exact inv_requestPlayAgain ih hp
    | countdownTick now hon => exact inv_preSeekCountdownTick ih hon now
    | seekTick now _ => exact inv_seekTimerTick ih now
    | soundTick now _ => exact inv_scheduleNextSound ih now

theorem hiderFilter_le_one (l : List Player) (hids : (l.map Player.id).Nodup)
    (h : ∀ p ∈ l, ∀ q ∈ l, p.role = Role.Hider → q.role = Role.Hider → p.id = q.id) :
    (l.filter (fun p => p.role == Role.Hider)).length ≤ 1 := by
  cases hf : l.filter (fun p => p.role == Role.Hider) with
  | nil => simp
  | cons a t =>
    cases t with
    | nil => simp
    | cons b t2 =>
      exfalso
      have hsub : (l.filter (fun p => p.role == Role.Hider)).Sublist l :=
        List.filter_sublist l
      have hnd : ((a :: b :: t2).map Player.id).Nodup := by
        rw [← hf]
        exact hids.sublist (hsub.map Player.id)
      have hamem : a ∈ l := hsub.subset (by rw [hf]; exact List.mem_cons_self _ _)
      have hbmem : b ∈ l := hsub.subset
        (by rw [hf]; exact List.mem_cons_of_mem _ (List.mem_cons_self _ _))
      have har : a.role = Role.Hider := by
        have : a ∈ l.filter (fun p => p.role == Role.Hider) := by
          rw [hf]; exact List.mem_cons_self _ _
        have := (List.mem_filter.mp this).2
        simpa using this
      have hbr : b.role = Role.Hider := by
        have : b ∈ l.filter (fun p => p.role == Role.Hider) := by
          rw [hf]; exact List.mem_cons_of_mem _ (List.mem_cons_self _ _)
        have := (List.mem_filter.mp this).2
        simpa using this
      have heq := h a hamem b hbmem har hbr
      simp only [List.map_cons, List.nodup_cons, List.mem_cons, List.mem_map] at hnd
      exact hnd.1 (Or.inl heq)

-- ==========================  A concrete game trace  ==========================

/-- P1 creates a room. -/
def rA : Room := (initRoom 1 ⟨0, 0⟩).getD {}

/-- P2 joins. -/
def rB : Room := (rA.addPlayer 2 ⟨0, 0⟩).getD {}

/-- The Hider starts the game: Hiding phase. -/
def rC : Room := (rB.startHidingPhase).toOption.getD {}

/-- P1 confirms hidden. -/
def rE : Room := (rC.confirmPlayerHidden 1).toOption.getD {}

/-- P2 confirms hidden: the pre-seek countdown starts. -/
def rF : Room := (rE.confirmPlayerHidden 2).toOption.getD {}

def rT1 : Room := rF.preSeekCountdownTick 1000
def rT2 : Room := rT1.preSeekCountdownTick 1000
def rT3 : Room := rT2.preSeekCountdownTick 1000
def rT4 : Room := rT3.preSeekCountdownTick 1000
def rT5 : Room := rT4.preSeekCountdownTick 1000
def rT6 : Room := rT5.preSeekCountdownTick 1000
def rT7 : Room := rT6.preSeekCountdownTick 1000
def rT8 : Room := rT7.preSeekCountdownTick 1000
def rT9 : Room := rT8.preSeekCountdownTick 1000

/-- The tenth countdown tick fires the Seeking phase at wall-clock 1000 ms. -/
def rT10 : Room := rT9.preSeekCountdownTick 1000

/-- The deadline ticker fires at 121000 ms (120 s elapsed): Hider wins and
the reveal sequence starts. -/
def rGOr : Room := rT10.seekTimerTick 121000

theorem reachable_rA : Reachable rA :=
  Reachable.init 1 ⟨0, 0⟩ rA (by decide)

theorem reachable_rB : Reachable rB :=
  Reachable.step _ _ reachable_rA (Step.join rA rB 2 ⟨0, 0⟩ (by decide))

theorem reachable_rC : Reachable rC :=
  Reachable.step _ _ reachable_rB (Step.startHiding rB rC rfl)

theorem reachable_rE : Reachable rE :=
  Reachable.step _ _ reachable_rC (Step.confirmHidden rC rE 1 rfl)

theorem reachable_rF : Reachable rF :=
  Reachable.step _ _ reachable_rE (Step.confirmHidden rE rF 2 rfl)

theorem reachable_rT10 : Reachable rT10 := by
  have h1 : Reachable rT1 :=
    Reachable.step _ _ reachable_rF (Step.countdownTick rF 1000 (by decide))
  have h2 : Reachable rT2 :=
    Reachable.step _ _ h1 (Step.countdownTick rT1 1000 (by decide))
  have h3 : Reachable rT3 :=
    Reachable.step _ _ h2 (Step.countdownTick rT2 1000 (by decide))
  have h4 : Reachable rT4 :=
    Reachable.step _ _ h3 (Step.countdownTick rT3 1000 (by decide))
  have h5 : Reachable rT5 :=
    Reachable.step _ _ h4 (Step.countdownTick rT4 1000 (by decide))
  have h6 : Reachable rT6 :=
    Reachable.step _ _ h5 (Step.countdownTick rT5 1000 (by decide))
  have h7 : Reachable rT7 :=
    Reachable.step _ _ h6 (Step.countdownTick rT6 1000 (by decide))
  have h8 : Reachable rT8 :=
    Reachable.step _ _ h7 (Step.countdownTick rT7 1000 (by decide))
  have h9 : Reachable rT9 :=
    Reachable.step _ _ h8 (Step.countdownTick rT8 1000 (by decide))
  exact Reachable.step _ _ h9 (Step.countdownTick rT9 1000 (by decide))

theorem reachable_rGOr : Reachable rGOr :=
  Reachable.step _ _ reachable_rT10 (Step.seekTick rT10 121000 (by decide))

def defaultPlayer : Player := { id := 0, number := 0, role := Role.Seeker }

theorem promoteNewHider_min {r0 : Room} (hne : r0.players ≠ []) :
    ∃ h0 ∈ (r0.promoteNewHider).players, h0.role = Role.Hider ∧
      ∀ q ∈ (r0.promoteNewHider).players, h0.number ≤ q.number := by
  unfold Room.promoteNewHider
  cases hsort : sortByNumber r0.players with
  | nil =>
    exfalso
    have hlen := (sortByNumber_perm r0.players).length_eq
    rw [hsort] at hlen
    exact hne (List.length_eq_zero.mp hlen.symm)
  | cons p0 t =>
    have hp0mem : p0 ∈ r0.players :=
      mem_sortByNumber.mp (hsort ▸ List.mem_cons_self p0 t)
    refine ⟨{ p0 with role := Role.Hider }, ?_, rfl, ?_⟩
    · exact List.mem_map.mpr ⟨p0, hp0mem, by simp⟩
    · intro q hq
      rcases mem_updatePlayer hq with ⟨q0, hq0, rfl⟩
      have hmin := sortByNumber_head_min hsort q0 hq0
      show p0.number ≤ _
      by_cases hc : q0.id = p0.id
      · rw [if_pos hc]; exact hmin
      · rw [if_neg hc]; exact hmin

/-- When the Hider disconnects from a Waiting room that stays non-empty, the
lowest-numbered remaining player is promoted. -/
theorem removePlayer_waiting_promotes {r : Room} {i : SocketId} {p : Player}
    (hgw : r.gameState = GameState.Waiting) (hx : r.getPlayer i = some p)
    (hh : p.role = Role.Hider) {r₂ : Room} (hrem : r.removePlayer i = (r₂, false)) :
    ∃ h0 ∈ r₂.players, h0.role = Role.Hider ∧
      ∀ q ∈ r₂.players, h0.number ≤ q.number := by
  unfold Room.removePlayer at hrem
  rw [hx] at hrem
  dsimp only at hrem
  split at hrem
  · have h2 := congrArg Prod.snd hrem
    simp at h2
  · rename_i hne
    have h1 := congrArg Prod.fst hrem
    dsimp only at h1
    subst h1
    refine promoteNewHider_min ?_
    intro hcon
    have hcon' : r.players.filter (fun q => q.id != i) = [] := hcon
    apply hne
    show (r.players.filter (fun q => q.id != i)).isEmpty = true
    rw [hcon']
    rfl

/-- C1 (as frozen) is FALSE on the code: the Hider disconnecting during the
Hiding phase leaves a non-empty reachable room with no Hider at all
(`_promoteNewHider` only runs from the Waiting branch of `removePlayer`).
Concretely: P1 (Hider) and P2 in a room, game started (Hiding), P1
disconnects; the remaining room contains only P2, a Seeker. -/
def rHid : Room := (rC.removePlayer 1).1

theorem C1_counterexample :
    Reachable rHid ∧ rHid.players ≠ [] ∧
    (rHid.players.filter (fun p => p.role == Role.Hider)).length = 0 :=
  ⟨Reachable.step _ _ reachable_rC (Step.disconnect rC rHid 1 (by decide)),
   by decide, by decide⟩

/-- C1 (amended): in every reachable state a room has AT MOST one player with
role Hider, and whenever the player with role Hider disconnects while the
room is in the Waiting state and other players remain, a remaining player
with the minimum `number` is promoted to Hider (and is then the unique
Hider).  A Hider disconnect during Hiding, Seeking or GameOver promotes
nobody, so a non-empty room can have zero Hiders. -/
theorem C1_amended :
    (∀ r : Room, Reachable r →
      (r.players.filter (fun p => p.role == Role.Hider)).length ≤ 1) ∧
    (∀ (r : Room) (i : SocketId) (p : Player) (r₂ : Room), Reachable r →
      r.gameState = GameState.Waiting → r.getPlayer i = some p →
      p.role = Role.Hider → r.removePlayer i = (r₂, false) →
      ∃ h0 ∈ r₂.players, h0.role = Role.Hider ∧
        (∀ q ∈ r₂.players, h0.number ≤ q.number) ∧
        (r₂.players.filter (fun q => q.role == Role.Hider)).length = 1) := by
  constructor
  · intro r h
    have hr := inv_reachable h
    exact hiderFilter_le_one r.players hr.idsNodup hr.hiderUnique
  · intro r i p r₂ h hgw hx hh hrem
    have hr := inv_reachable h
    have hr₂ : Inv r₂ := inv_removePlayer hr hrem
    rcases removePlayer_waiting_promotes hgw hx hh hrem with ⟨h0, hmem, hrole, hmin⟩
    refine ⟨h0, hmem, hrole, hmin, ?_⟩
    have hle := hiderFilter_le_one r₂.players hr₂.idsNodup hr₂.hiderUnique
    have hmemf : h0 ∈ r₂.players.filter (fun q => q.role == Role.Hider) :=
      List.mem_filter.mpr ⟨hmem, by simp [hrole]⟩
    have hge : 0 < (r₂.players.filter (fun q => q.role == Role.Hider)).length :=
      List.length_pos.mpr (fun hc => by rw [hc] at hmemf; exact absurd hmemf (by simp))
    omega

/-- P1 (the Hider) disconnects from the Waiting room: P2 is promoted. -/
def rProm : Room := (rB.removePlayer 1).1

theorem C1_witness :
    ((rB.players.filter (fun p => p.role == Role.Hider)).length ≤ 1) ∧
    (∃ h0 ∈ rProm.players, h0.role = Role.Hider ∧
      (∀ q ∈ rProm.players, h0.number ≤ q.number) ∧
      (rProm.players.filter (fun q => q.role == Role.Hider)).length = 1) :=
  ⟨C1_amended.1 rB reachable_rB,
   C1_amended.2 rB 1 ((rB.getPlayer 1).getD defaultPlayer) rProm reachable_rB
     (by decide) (by decide) (by decide) (by decide)⟩

/-- C6: during Seeking, no player's `soundsPlayed` ever exceeds the room's
`soundPlaysPerPlayer`, in every reachable state (the scheduler only sends a
cue to players with `soundsPlayed < soundPlaysPerPlayer`; phase entries reset
the counters; settings changes are confined to Waiting where all counters
are zero). -/
theorem C6_thm : ∀ r : Room, Reachable r → r.gameState = GameState.Seeking →
    ∀ p ∈ r.players, p.soundsPlayed ≤ r.soundPlaysPerPlayer :=
  fun _ h _ => (inv_reachable h).soundsLe

theorem C6_witness : rT10.gameState = GameState.Seeking ∧
    ∀ p ∈ rT10.players, p.soundsPlayed ≤ rT10.soundPlaysPerPlayer :=
  ⟨by decide, C6_thm rT10 reachable_rT10 (by decide)⟩

/-- C8: in every reachable state, `unfoundPlayerQueue` contains no id of a
found player, and `activeUnfoundPlayerId`, when non-null, is the id of a
present, not-found player. -/
theorem C8_thm : ∀ r : Room, Reachable r →
    (∀ id ∈ r.unfoundPlayerQueue, ∀ p ∈ r.players, p.id = id → p.isFound = false) ∧
    (∀ a, r.activeUnfoundPlayerId = some a →
      ∃ p ∈ r.players, p.id = a ∧ p.isFound = false) := by
  intro r h
  have hr := inv_reachable h
  constructor
  · intro id hid p hp hpid
    rcases hr.queueGood id hid with ⟨q, hq, hqid, hqnf⟩
    have hpq : p = q :=
      List.inj_on_of_nodup_map hr.idsNodup hp hq (by rw [hpid, hqid])
    rw [hpq]
    exact hqnf
  · intro a ha
    exact (hr.activeGood a ha).1

theorem C8_witness :
    (∀ id ∈ rGOr.unfoundPlayerQueue, ∀ p ∈ rGOr.players, p.id = id → p.isFound = false) ∧
    (∃ p ∈ rGOr.players, p.id = 1 ∧ p.isFound = false) :=
  ⟨(C8_thm rGOr reachable_rGOr).1,
   (C8_thm rGOr reachable_rGOr).2 1 (by decide)⟩

/-- C10: removing the Hider during Seeking with other players remaining ends
the game immediately with winner = Seekers; the remaining players are exactly
the roster minus the departed player, with their roles untouched (no
promotion). -/
theorem C10_thm : ∀ (r : Room) (i : SocketId) (p : Player),
    r.getPlayer i = some p → r.gameState = GameState.Seeking →
    p.role = Role.Hider → r.players.filter (fun q => q.id != i) ≠ [] →
    (r.removePlayer i).2 = false ∧
    (r.removePlayer i).1.gameState = GameState.GameOver ∧
    (r.removePlayer i).1.winner = some Winner.Seekers ∧
    (r.removePlayer i).1.players = r.players.filter (fun q => q.id != i) := by
  intro r i p hx hs hh hne
  unfold Room.removePlayer
  rw [hx]
  dsimp only
  rw [if_neg (show ¬((r.players.filter (fun q => q.id != i)).isEmpty = true) by
    intro hc
    exact hne (List.isEmpty_iff.mp hc))]
  rw [if_neg (show ¬(r.gameState = GameState.Waiting) by rw [hs]; simp)]
  rw [if_neg (show ¬(r.gameState = GameState.Hiding) by rw [hs]; simp)]
  rw [if_pos hs, if_pos hh]
  have hng : (Room.endGame { r with
      assignedAnimalSounds :=
        (match p.uniqueAnimalSoundURL with
         | some s => r.assignedAnimalSounds.erase s
         | none => r.assignedAnimalSounds),
      assignedUnfoundSounds :=
        (match p.uniqueUnfoundSoundURL with
         | some s => r.assignedUnfoundSounds.erase s
         | none => r.assignedUnfoundSounds),
      players := r.players.filter (fun q => q.id != i) } Winner.Seekers) =
      _ := endGame_seekers_eq _ (by
        show ¬(r.gameState = GameState.GameOver)
        rw [hs]; simp)
  refine ⟨rfl, ?_, ?_, ?_⟩
  · rw [hng]
  · rw [hng]
  · rw [hng]
    rfl

theorem C10_witness :
    (rT10.removePlayer 1).2 = false ∧
    (rT10.removePlayer 1).1.gameState = GameState.GameOver ∧
    (rT10.removePlayer 1).1.winner = some Winner.Seekers ∧
    (rT10.removePlayer 1).1.players = rT10.players.filter (fun q => q.id != 1) :=
  C10_thm rT10 1 ((rT10.getPlayer 1).getD defaultPlayer)
    (by decide) (by decide) (by decide) (by decide)

-- ==============  Client-visible state (`getClientState`)  ==============

/-- `Player.getClientState`: `soundsPlayed` is intentionally omitted. -/
structure ClientPlayer where
  id : SocketId
  number : Nat
  role : Role
  isReady : Bool
  isFound : Bool
  uniqueAnimalSoundURL : Option String
  uniqueUnfoundSoundURL : Option String
deriving DecidableEq

def Player.getClientState (p : Player) : ClientPlayer :=
  ⟨p.id, p.number, p.role, p.isReady, p.isFound,
   p.uniqueAnimalSoundURL, p.uniqueUnfoundSoundURL⟩

/-- `Room.getClientState`: the snapshot broadcast to clients (the constant
`roomCode` naming the room in the registry is not modelled; the internal
scheduling handles are not part of it). -/
structure ClientState where
  players : List ClientPlayer
  gameState : GameState
  seekTimeLimit : Nat
  soundPlaysPerPlayer : Nat
  seekStartTime : Option Nat
  winner : Option Winner
  activeUnfoundPlayerId : Option SocketId
deriving DecidableEq

def Room.getClientState (r : Room) : ClientState :=
  ⟨r.players.map Player.getClientState, r.gameState, r.seekTimeLimit,
   r.soundPlaysPerPlayer, r.seekStartTime, r.winner, r.activeUnfoundPlayerId⟩

-- =====================  Lookup/frame helper lemmas  =====================

theorem find_updatePlayer (ps : List Player) (i : SocketId) (f : Player → Player)
    (hf : ∀ p, (f p).id = p.id) :
    (updatePlayer ps i f).find? (fun p => p.id == i) =
      (ps.find? (fun p => p.id == i)).map f := by
  induction ps with
  | nil => rfl
  | cons p ps ih =>
    unfold updatePlayer at ih ⊢
    rw [List.map_cons]
    by_cases hc : p.id = i
    · rw [if_pos hc]
      rw [List.find?_cons_of_pos _ (by rw [hf p, hc]; simp),
          List.find?_cons_of_pos _ (by rw [hc]; simp)]
      rfl
    · rw [if_neg hc]
      rw [List.find?_cons_of_neg _ (by simp [hc]),
          List.find?_cons_of_neg _ (by simp [hc])]
      exact ih

theorem checkSeekerWin_players (r : Room) : ((r.checkSeekerWin).1).players = r.players := by
  unfold Room.checkSeekerWin
  split
  · rfl
  · split
    · exact endGame_players r Winner.Seekers
    · rfl

theorem activateNextUnfoundPlayer_players (r : Room) :
    (r.activateNextUnfoundPlayer).players = r.players := by
  unfold Room.activateNextUnfoundPlayer
  split
  · exact activateFrom_players r _
  · rfl

theorem startPreSeekCountdown_frame (r : Room) :
    (r.startPreSeekCountdown).players = r.players ∧
    (r.startPreSeekCountdown).gameState = r.gameState := by
  unfold Room.startPreSeekCountdown
  split
  · exact ⟨rfl, rfl⟩
  · exact ⟨rfl, rfl⟩

/-- A confirm call on a room where the player is already ready, during
Hiding, silently returns the room unchanged. -/
theorem confirm_again {X : Room} {i : SocketId} {p : Player}
    (hfind : X.getPlayer i = some p) (hready : p.isReady = true)
    (hphase : X.gameState = GameState.Hiding) :
    X.confirmPlayerHidden i = .ok X := by
  unfold Room.confirmPlayerHidden
  rw [hfind]
  dsimp only
  rw [if_neg (by rw [hphase]; simp), if_pos hready]

/-- A mark-found call on a room where the player is already found silently
returns the room unchanged, before any phase check. -/
theorem markFound_again {X : Room} {i : SocketId} {p : Player}
    (hfind : X.getPlayer i = some p) (hfound : p.isFound = true) :
    X.markPlayerFound i = .ok X := by
  unfold Room.markPlayerFound
  rw [hfind]
  dsimp only
  rw [if_pos hfound]

/-- C3: (a) a deadline tick during Seeking at or past the limit ends the
game with winner = Hider; (b) a found-mark that makes every player found
ends the game immediately with winner = Seekers; (c) once the game is over,
`endGame` returns the room untouched, `checkSeekerWin` is a no-op, and a
late deadline tick leaves the client-observable room state unchanged —
whichever ending fires first wins. -/
theorem C3_thm :
    (∀ (r : Room) (now : Nat), r.gameState = GameState.Seeking →
      (now : Int) - (r.seekStartTime.getD 0 : Int) ≥ (r.seekTimeLimit : Int) * 1000 →
      (r.seekTimerTick now).gameState = GameState.GameOver ∧
      (r.seekTimerTick now).winner = some Winner.Hider) ∧
    (∀ (r : Room) (i : SocketId) (p : Player), r.gameState = GameState.Seeking →
      r.getPlayer i = some p → p.isFound = false →
      (∀ q ∈ r.players, q.id ≠ i → q.isFound = true) →
      ∃ r₂, r.markPlayerFound i = .ok r₂ ∧
        r₂.gameState = GameState.GameOver ∧ r₂.winner = some Winner.Seekers) ∧
    (∀ (r : Room) (w : Winner) (now : Nat), r.gameState = GameState.GameOver →
      r.endGame w = r ∧ r.checkSeekerWin = (r, false) ∧
      (r.seekTimerTick now).getClientState = r.getClientState) := by
  refine ⟨?_, ?_, ?_⟩
  · intro r now hs htime
    unfold Room.seekTimerTick
    rw [if_pos hs, if_pos htime]
    exact endGame_state r Winner.Hider (by rw [hs]; simp)
  · intro r i p hs hx hnf hall
    unfold Room.markPlayerFound
    rw [hx]
    dsimp only
    rw [if_neg (by simp [hnf])]
    rw [if_neg (show ¬(r.gameState ≠ GameState.Seeking ∧
      ¬(r.gameState = GameState.GameOver ∧ r.winner = some Winner.Hider))
      from fun hc => hc.1 hs)]
    rw [if_pos (show _ = GameState.Seeking from hs)]
    refine ⟨_, rfl, ?_⟩
    unfold Room.checkSeekerWin
    rw [if_neg (show ¬¬(_ = GameState.Seeking) from fun hc => hc hs)]
    rw [if_pos ?hall]
    case hall =>
      rw [List.all_eq_true]
      intro q hq
      rcases mem_updatePlayer hq with ⟨q0, hq0, rfl⟩
      by_cases hc : q0.id = i
      · rw [if_pos hc]
      · rw [if_neg hc]
        exact hall q0 hq0 hc
    exact endGame_state _ Winner.Seekers (by
      show ¬(r.gameState = GameState.GameOver)
      rw [hs]; simp)
  · intro r w now hgo
    refine ⟨?_, ?_, ?_⟩
    · unfold Room.endGame
      rw [if_pos hgo]
    · unfold Room.checkSeekerWin
      rw [if_pos (show r.gameState ≠ GameState.Seeking by rw [hgo]; simp)]
    · unfold Room.seekTimerTick
      rw [if_neg (by rw [hgo]; simp)]
      rfl

/-- A Seeking room in which only P2 is still unfound. -/
def rSeekB : Room :=
  { players :=
      [{ id := 1, number := 1, role := Role.Hider, isFound := true,
         uniqueAnimalSoundURL := some "/sounds/cat.mp3",
         uniqueUnfoundSoundURL := some "/sounds/unfound1.mp3" },
       { id := 2, number := 2, role := Role.Seeker,
         uniqueAnimalSoundURL := some "/sounds/chicken.mp3",
         uniqueUnfoundSoundURL := some "/sounds/unfound2.mp3" }],
    gameState := GameState.Seeking, seekStartTime := some 0,
    seekTimerOn := true, soundRotationOn := true }

theorem C3_witness :
    ((rT10.seekTimerTick 121000).gameState = GameState.GameOver ∧
     (rT10.seekTimerTick 121000).winner = some Winner.Hider) ∧
    (∃ r₂, rSeekB.markPlayerFound 2 = .ok r₂ ∧
      r₂.gameState = GameState.GameOver ∧ r₂.winner = some Winner.Seekers) ∧
    (rGOr.endGame Winner.Seekers = rGOr ∧ rGOr.checkSeekerWin = (rGOr, false) ∧
     (rGOr.seekTimerTick 500000).getClientState = rGOr.getClientState) :=
  ⟨C3_thm.1 rT10 121000 (by decide) (by decide),
   C3_thm.2.1 rSeekB 2 ((rSeekB.getPlayer 2).getD defaultPlayer)
     (by decide) (by decide) (by decide) (by decide),
   C3_thm.2.2 rGOr Winner.Seekers 500000 (by decide)⟩

/-- C7: a second confirm-hidden for the same player (after a successful one)
and a second mark-found for the same player (after a successful one) are
silent no-ops: they return `.ok` with the room exactly unchanged. -/
theorem C7_thm :
    (∀ (r r₁ : Room) (i : SocketId), r.confirmPlayerHidden i = .ok r₁ →
      r₁.confirmPlayerHidden i = .ok r₁) ∧
    (∀ (r r₁ : Room) (i : SocketId), r.markPlayerFound i = .ok r₁ →
      r₁.markPlayerFound i = .ok r₁) := by
  constructor
  · intro r r₁ i h
    unfold Room.confirmPlayerHidden at h
    cases hx : r.getPlayer i with
    | none => rw [hx] at h; simp at h
    | some p =>
      rw [hx] at h
      dsimp only at h
      split at h
      · simp at h
      · rename_i hphase
        have hgh : r.gameState = GameState.Hiding := by
          by_contra hc; exact hphase hc
        split at h
        · rename_i hready
          injection h with h'
          subst h'
          exact confirm_again hx hready hgh
        · have hfind1 : ∀ Y : Room,
              Y.players = updatePlayer r.players i (fun q => { q with isReady := true }) →
              Y.getPlayer i = some { p with isReady := true } := by
            intro Y hY
            unfold Room.getPlayer
            rw [hY, find_updatePlayer r.players i
              (fun q => { q with isReady := true }) (fun q => rfl)]
            unfold Room.getPlayer at hx
            rw [hx]
            rfl
          split at h
          · injection h with h'
            subst h'
            refine confirm_again (hfind1 _ ?_) rfl ?_
            · exact (startPreSeekCountdown_frame _).1
            · rw [(startPreSeekCountdown_frame _).2]
              exact hgh
          · injection h with h'
            subst h'
            exact confirm_again (hfind1 _ rfl) rfl hgh
  · intro r r₁ i h
    unfold Room.markPlayerFound at h
    cases hx : r.getPlayer i with
    | none => rw [hx] at h; simp at h
    | some p =>
      rw [hx] at h
      dsimp only at h
      split at h
      · rename_i hfound
        injection h with h'
        subst h'
        exact markFound_again hx hfound
      · split at h
        · simp at h
        · have hfind1 : ∀ Y : Room,
              Y.players = updatePlayer r.players i (fun q => { q with isFound := true }) →
              Y.getPlayer i = some { p with isFound := true } := by
            intro Y hY
            unfold Room.getPlayer
            rw [hY, find_updatePlayer r.players i
              (fun q => { q with isFound := true }) (fun q => rfl)]
            unfold Room.getPlayer at hx
            rw [hx]
            rfl
          split at h
          · injection h with h'
            subst h'
            refine markFound_again (hfind1 _ ?_) rfl
            exact checkSeekerWin_players _
          · split at h
            · injection h with h'
              subst h'
              refine markFound_again (hfind1 _ ?_) rfl
              exact activateNextUnfoundPlayer_players _
            · injection h with h'
              subst h'
              exact markFound_again (hfind1 _ rfl) rfl

/-- The room after P2 marks found in `rSeekB` (the game ends, Seekers win). -/
def rSeekB2 : Room := (rSeekB.markPlayerFound 2).toOption.getD {}

theorem C7_witness :
    (rE.confirmPlayerHidden 1 = .ok rE) ∧
    (rSeekB2.markPlayerFound 2 = .ok rSeekB2) :=
  ⟨C7_thm.1 rC rE 1 rfl, C7_thm.2 rSeekB rSeekB2 2 rfl⟩

/-- C2 (as frozen) is FALSE on the code: `updateSettings` validates and
applies `seekTimeLimit` before validating `soundPlaysPerPlayer`, so
`updateSettings({seekTimeLimit: 100, soundPlaysPerPlayer: 999})` from the
Hider of a Waiting room raises the ValidationError for the sound count,
emits the error to the requester only — but the already-applied
`seekTimeLimit` mutation (120 → 100) survives the throw. -/
theorem C2_counterexample :
    ((rB.updateSettings ⟨some (some 100), some (some 999)⟩).2.2).isSome = true ∧
    (handleUpdateSettings rB 1 ⟨some (some 100), some (some 999)⟩).2 =
      [Event.errorMsg 1] ∧
    (handleUpdateSettings rB 1 ⟨some (some 100), some (some 999)⟩).1.seekTimeLimit = 100 ∧
    rB.seekTimeLimit = 120 := by
  refine ⟨by decide, by decide, by decide, by decide⟩

/-- C2 (amended): a request rejected by the actor-role or phase guard (or
from a non-member) leaves the room completely unchanged, and the error is
emitted to the requesting connection only; a validation error never changes
`soundPlaysPerPlayer`; an invalid `seekTimeLimit` aborts `updateSettings`
before any mutation; but when a valid `seekTimeLimit` is accompanied by an
invalid `soundPlaysPerPlayer`, the error is still emitted only to the
requester while the already-applied `seekTimeLimit` change persists (so
`seekTimeLimit` is NOT always unchanged after a rejected call). -/
theorem C2_amended :
    ∀ (r : Room) (requester : SocketId) (s : Settings),
    ((∀ p, r.getPlayer requester = some p →
        ¬(p.role = Role.Hider ∧ r.gameState = GameState.Waiting)) →
      handleUpdateSettings r requester s = (r, [Event.errorMsg requester])) ∧
    ((r.updateSettings s).2.2.isSome = true →
      (r.updateSettings s).1.soundPlaysPerPlayer = r.soundPlaysPerPlayer) ∧
    ((s.seekTimeLimit = some none ∨
      (∃ v, s.seekTimeLimit = some (some v) ∧
        ¬(MIN_SEEK_TIME_LIMIT_S ≤ v ∧ v ≤ MAX_SEEK_TIME_LIMIT_S))) →
      r.updateSettings s = (r, false, some "Invalid time limit.")) ∧
    (∀ p, r.getPlayer requester = some p → p.role = Role.Hider →
      r.gameState = GameState.Waiting →
      (r.updateSettings s).2.2.isSome = true →
      handleUpdateSettings r requester s =
        ((r.updateSettings s).1, [Event.errorMsg requester])) := by
  intro r requester s
  refine ⟨?_, ?_, ?_, ?_⟩
  · intro hguard
    unfold handleUpdateSettings
    cases hx : r.getPlayer requester with
    | none => rfl
    | some p =>
      dsimp only
      have hng := hguard p hx
      by_cases hrole : p.role ≠ Role.Hider
      · rw [if_pos hrole]
      · rw [if_neg hrole]
        have hrole' : p.role = Role.Hider := by
          by_contra hc; exact hrole hc
        have hstate : r.gameState ≠ GameState.Waiting := by
          intro hc; exact hng ⟨hrole', hc⟩
        rw [if_pos hstate]
  · intro hsome
    unfold Room.updateSettings at hsome ⊢
    cases h1 : s.seekTimeLimit with
    | none =>
      cases h2 : s.soundPlaysPerPlayer with
      | none => rfl
      | some o2 =>
        cases o2 with
        | none => rfl
        | some v2 =>
          rw [h1, h2] at hsome
          dsimp only at hsome ⊢
          split_ifs at hsome ⊢ with hv
          · simp at hsome
          · rfl
    | some o1 =>
      cases o1 with
      | none => rfl
      | some v1 =>
        rw [h1] at hsome
        dsimp only at hsome ⊢
        split_ifs at hsome ⊢ with hv1
        · cases h2 : s.soundPlaysPerPlayer with
          | none => rfl
          | some o2 =>
            cases o2 with
            | none => rfl
            | some v2 =>
              rw [h2] at hsome
              dsimp only at hsome ⊢
              split_ifs at hsome ⊢ with hv
              · simp at hsome
              · rfl
        · rfl
  · intro hbad
    unfold Room.updateSettings
    rcases hbad with hnan | ⟨v, hv, hnr⟩
    · rw [hnan]
    · rw [hv]
      dsimp only
      rw [if_neg hnr]
  · intro p hx hrole hgw hsome
    unfold handleUpdateSettings
    rw [hx]
    dsimp only
    rw [if_neg (show ¬(p.role ≠ Role.Hider) from fun hc => hc hrole)]
    rw [if_neg (show ¬(r.gameState ≠ GameState.Waiting) from fun hc => hc hgw)]
    rcases hu : r.updateSettings s with ⟨r1, upd, err⟩
    rw [hu] at hsome
    cases err with
    | none => simp at hsome
    | some e =>
      dsimp only

theorem C2_witness :
    (handleUpdateSettings rB 2 ⟨some (some 300), none⟩ = (rB, [Event.errorMsg 2])) ∧
    ((rB.updateSettings ⟨some (some 100), some (some 999)⟩).1.soundPlaysPerPlayer =
      rB.soundPlaysPerPlayer) ∧
    (rB.updateSettings ⟨some (some 999), none⟩ =
      (rB, false, some "Invalid time limit.")) ∧
    (handleUpdateSettings rB 1 ⟨some (some 100), some (some 999)⟩ =
      ((rB.updateSettings ⟨some (some 100), some (some 999)⟩).1,
       [Event.errorMsg 1])) :=
  ⟨(C2_amended rB 2 ⟨some (some 300), none⟩).1 (by decide),
   (C2_amended rB 1 ⟨some (some 100), some (some 999)⟩).2.1 (by decide),
   (C2_amended rB 1 ⟨some (some 999), none⟩).2.2.1
     (Or.inr ⟨999, rfl, by decide⟩),
   (C2_amended rB 1 ⟨some (some 100), some (some 999)⟩).2.2.2
     ((rB.getPlayer 1).getD defaultPlayer) (by decide) (by decide) (by decide)
     (by decide)⟩

theorem le_foldl_add (g : Player → Nat) :
    ∀ (l : List Player) (init : Nat),
      init ≤ l.foldl (fun s p => s + g p) init := by
  intro l
  induction l with
  | nil => intro init; exact Nat.le_refl _
  | cons x xs ih =>
    intro init
    calc init ≤ init + g x := Nat.le_add_right _ _
    _ ≤ _ := ih (init + g x)

theorem totalPlaysLeft_pos {r : Room} (h : r.eligiblePlayers ≠ []) :
    0 < r.totalPlaysLeft := by
  unfold Room.totalPlaysLeft
  cases he : r.eligiblePlayers with
  | nil => exact absurd he h
  | cons q qs =>
    have hq : q ∈ r.eligiblePlayers := by
      rw [he]; exact List.mem_cons_self _ _
    have hlt := (mem_eligiblePlayers hq).2.2
    show 0 < List.foldl (fun s p => s + (r.soundPlaysPerPlayer - p.soundsPlayed))
      (0 + (r.soundPlaysPerPlayer - q.soundsPlayed)) qs
    have h1 : 0 < 0 + (r.soundPlaysPerPlayer - q.soundsPlayed) := by omega
    exact Nat.lt_of_lt_of_le h1
      (le_foldl_add (fun p => r.soundPlaysPerPlayer - p.soundsPlayed) qs _)

/-- C4: on a sound-rotation tick during Seeking with time still remaining:
if the eligible set (not found, `soundsPlayed < soundPlaysPerPlayer`) is
empty, the same check is rescheduled after the fixed
`CHECK_INTERVAL_WHEN_NO_SOUNDS_MS` and no cue is sent; otherwise
`totalPlaysLeft = Σ (soundPlaysPerPlayer - soundsPlayed)` over the eligible
players is positive and the rescheduling delay is exactly
`max MIN_SOUND_DELAY_MS (timeRemaining / totalPlaysLeft)`. -/
theorem C4_thm :
    ∀ (r : Room) (now : Nat),
    r.gameState = GameState.Seeking →
    0 < (r.seekTimeLimit : Int) * 1000 - ((now : Int) - (r.seekStartTime.getD 0 : Int)) →
    ((r.eligiblePlayers = [] →
       (r.scheduleNextSound now).1 = { r with soundRotationOn := true } ∧
       (r.scheduleNextSound now).2.1 = [] ∧
       (r.scheduleNextSound now).2.2 = some CHECK_INTERVAL_WHEN_NO_SOUNDS_MS) ∧
     (r.eligiblePlayers ≠ [] →
       0 < r.totalPlaysLeft ∧
       (r.scheduleNextSound now).2.2 = some (max MIN_SOUND_DELAY_MS
         ((((r.seekTimeLimit : Int) * 1000 -
             ((now : Int) - (r.seekStartTime.getD 0 : Int))) : ℚ) /
           (r.totalPlaysLeft : ℚ))))) := by
  intro r now hgs hpos
  have hmax : max 0 ((r.seekTimeLimit : Int) * 1000 -
      ((now : Int) - (r.seekStartTime.getD 0 : Int))) =
      (r.seekTimeLimit : Int) * 1000 -
      ((now : Int) - (r.seekStartTime.getD 0 : Int)) :=
    max_eq_right (le_of_lt hpos)
  unfold Room.scheduleNextSound
  rw [if_neg (show ¬(r.gameState ≠ GameState.Seeking) from fun hc => hc hgs)]
  dsimp only
  rw [hmax]
  rw [if_neg (not_le.mpr hpos)]
  constructor
  · intro helig
    rw [dif_neg (show ¬(0 < r.eligiblePlayers.length) by rw [helig]; simp)]
    exact ⟨rfl, rfl, rfl⟩
  · intro hne
    have hplays := totalPlaysLeft_pos hne
    rw [dif_pos (List.length_pos.mpr hne)]
    rw [if_pos hplays]
    refine ⟨hplays, ?_⟩
    dsimp only
    split <;> exact congrArg some (by push_cast; ring)

theorem C4_witness :
    ((rT10.scheduleNextSound 2000).2.2 = some (max MIN_SOUND_DELAY_MS
      ((((rT10.seekTimeLimit : Int) * 1000 -
          ((2000 : Int) - (rT10.seekStartTime.getD 0 : Int))) : ℚ) /
        (rT10.totalPlaysLeft : ℚ)))) ∧
    0 < rT10.totalPlaysLeft := by
  have h := (C4_thm rT10 2000 (by decide) (by decide)).2 (by decide)
  exact ⟨h.2, h.1⟩

/-- C5: on a sound-rotation tick during Seeking with a non-empty eligible
set and time remaining, the selected player is the one at position
`nextPlayerIndexToPlay % |eligible|` in the number-ordered eligible list;
when a cue is actually sent the rotation index advances by exactly one
(modulo the eligible-set size) and only the selected player's
`soundsPlayed` is bumped; a selected player with no assigned sound URL is
skipped: no cue is emitted and no player's `soundsPlayed` changes. -/
theorem C5_thm :
    ∀ (r : Room) (now : Nat),
    r.gameState = GameState.Seeking →
    0 < (r.seekTimeLimit : Int) * 1000 - ((now : Int) - (r.seekStartTime.getD 0 : Int)) →
    ∀ (hlen : 0 < r.eligiblePlayers.length),
    ((∀ url,
      (r.eligiblePlayers.get ⟨r.nextPlayerIndexToPlay % r.eligiblePlayers.length,
         Nat.mod_lt _ hlen⟩).uniqueAnimalSoundURL = some url →
      (r.scheduleNextSound now).2.1 =
        [Event.playSound
          (r.eligiblePlayers.get ⟨r.nextPlayerIndexToPlay % r.eligiblePlayers.length,
             Nat.mod_lt _ hlen⟩).id url] ∧
      (r.scheduleNextSound now).1.nextPlayerIndexToPlay =
        r.nextPlayerIndexToPlay % r.eligiblePlayers.length + 1 ∧
      (r.scheduleNextSound now).1.nextPlayerIndexToPlay % r.eligiblePlayers.length =
        (r.nextPlayerIndexToPlay + 1) % r.eligiblePlayers.length ∧
      (r.scheduleNextSound now).1.players =
        updatePlayer r.players
          (r.eligiblePlayers.get ⟨r.nextPlayerIndexToPlay % r.eligiblePlayers.length,
             Nat.mod_lt _ hlen⟩).id
          (fun p => { p with soundsPlayed := p.soundsPlayed + 1 })) ∧
     ((r.eligiblePlayers.get ⟨r.nextPlayerIndexToPlay % r.eligiblePlayers.length,
         Nat.mod_lt _ hlen⟩).uniqueAnimalSoundURL = none →
      (r.scheduleNextSound now).2.1 = [] ∧
      (r.scheduleNextSound now).1.players = r.players)) := by
  intro r now hgs hpos hlen
  have hne : r.eligiblePlayers ≠ [] := by
    intro hc; rw [hc] at hlen; simp at hlen
  have hplays := totalPlaysLeft_pos hne
  have hmax : max 0 ((r.seekTimeLimit : Int) * 1000 -
      ((now : Int) - (r.seekStartTime.getD 0 : Int))) =
      (r.seekTimeLimit : Int) * 1000 -
      ((now : Int) - (r.seekStartTime.getD 0 : Int)) :=
    max_eq_right (le_of_lt hpos)
  unfold Room.scheduleNextSound
  rw [if_neg (show ¬(r.gameState ≠ GameState.Seeking) from fun hc => hc hgs)]
  dsimp only
  rw [hmax]
  rw [if_neg (not_le.mpr hpos)]
  rw [dif_pos hlen]
  rw [if_pos hplays]
  constructor
  · intro url hurl
    rw [hurl]
    dsimp only
    refine ⟨rfl, rfl, ?_, rfl⟩
    exact (Nat.mod_modEq r.nextPlayerIndexToPlay r.eligiblePlayers.length).add_right 1
  · intro hurl
    rw [hurl]
    dsimp only
    exact ⟨rfl, rfl⟩

theorem C5_witness :
    (rT10.scheduleNextSound 2000).2.1 = [Event.playSound 1 "/sounds/cat.mp3"] ∧
    (rT10.scheduleNextSound 2000).1.nextPlayerIndexToPlay = 1 := by
  have h := ((C5_thm rT10 2000 (by decide) (by decide) (by decide)).1
    "/sounds/cat.mp3" (by decide))
  refine ⟨?_, ?_⟩
  · rw [h.1]; decide
  · rw [h.2.1]; decide

theorem forall2_reassigned_triple :
    ∀ {ps qs : List Player}, List.Forall₂ Reassigned ps qs →
      qs.map (fun p => (p.id, p.number, p.role)) =
        ps.map (fun p => (p.id, p.number, p.role)) := by
  intro ps qs h
  induction h with
  | nil => rfl
  | cons hR _ ih =>
    simp only [List.map_cons, ih, hR.1, hR.2.1, hR.2.2.1]

theorem resetForNewGame_spec (r : Room) (oracle : Nat → Picks) :
    (r.resetForNewGame oracle).gameState = GameState.Waiting ∧
    (r.resetForNewGame oracle).winner = none ∧
    (r.resetForNewGame oracle).preSeekCountdownOn = false ∧
    (r.resetForNewGame oracle).seekTimerOn = false ∧
    (r.resetForNewGame oracle).soundRotationOn = false ∧
    (r.resetForNewGame oracle).seekStartTime = none ∧
    (r.resetForNewGame oracle).unfoundPlayerQueue = [] ∧
    (r.resetForNewGame oracle).activeUnfoundPlayerId = none ∧
    (r.resetForNewGame oracle).players.map (fun p => (p.id, p.number, p.role)) =
      r.players.map (fun p => (p.id, p.number, p.role)) ∧
    (∀ q ∈ (r.resetForNewGame oracle).players,
      q.isReady = false ∧ q.isFound = false ∧ q.soundsPlayed = 0 ∧
      q.uniqueAnimalSoundURL.isSome = true ∧ q.uniqueUnfoundSoundURL.isSome = true) ∧
    (∀ s ∈ (r.resetForNewGame oracle).assignedAnimalSounds,
      ∃ q ∈ (r.resetForNewGame oracle).players, q.uniqueAnimalSoundURL = some s) ∧
    (∀ s ∈ (r.resetForNewGame oracle).assignedUnfoundSounds,
      ∃ q ∈ (r.resetForNewGame oracle).players, q.uniqueUnfoundSoundURL = some s) := by
  set r3 : Room := { r.clearGameIntervals with
      gameState := GameState.Waiting, winner := none,
      seekStartTime := none, activeUnfoundPlayerId := none,
      unfoundPlayerQueue := [],
      assignedAnimalSounds := [], assignedUnfoundSounds := [] } with hr3
  have hroom := reassignLoop_room oracle r3.players r3 0
  have hfa := reassignLoop_forall2 oracle r3.players r3 0
  have hsets := reassignLoop_sets oracle r3.players r3 0
  refine ⟨?_, ?_, ?_, ?_, ?_, ?_, ?_, ?_, ?_, ?_, ?_, ?_⟩
  · show (reassignLoop r3 oracle 0 r3.players).1.gameState = GameState.Waiting
    rw [hroom.2.1]
  · show (reassignLoop r3 oracle 0 r3.players).1.winner = none
    rw [hroom.2.2.2.2.2.1]
  · show (reassignLoop r3 oracle 0 r3.players).1.preSeekCountdownOn = false
    rw [hroom.2.2.2.2.2.2.1]
    rfl
  · show (reassignLoop r3 oracle 0 r3.players).1.seekTimerOn = false
    rw [hroom.2.2.2.2.2.2.2.1]
    rfl
  · show (reassignLoop r3 oracle 0 r3.players).1.soundRotationOn = false
    rw [hroom.2.2.2.2.2.2.2.2.1]
    rfl
  · show (reassignLoop r3 oracle 0 r3.players).1.seekStartTime = none
    rw [hroom.2.2.2.2.2.2.2.2.2.1]
  · show (reassignLoop r3 oracle 0 r3.players).1.unfoundPlayerQueue = []
    rw [hroom.2.2.2.1]
  · show (reassignLoop r3 oracle 0 r3.players).1.activeUnfoundPlayerId = none
    rw [hroom.2.2.2.2.1]
  · show (reassignLoop r3 oracle 0 r3.players).2.map (fun p => (p.id, p.number, p.role)) =
      r.players.map (fun p => (p.id, p.number, p.role))
    exact forall2_reassigned_triple hfa
  · intro q hq
    have hq' : q ∈ (reassignLoop r3 oracle 0 r3.players).2 := hq
    rcases forall2_mem_right hfa q hq' with ⟨p0, _, hR⟩
    exact ⟨hR.2.2.2.1, hR.2.2.2.2.1, hR.2.2.2.2.2.1,
      hR.2.2.2.2.2.2.1, hR.2.2.2.2.2.2.2⟩
  · intro s hs
    have hs' : s ∈ (reassignLoop r3 oracle 0 r3.players).1.assignedAnimalSounds := hs
    rcases hsets.1 s hs' with hleft | ⟨q, hqmem, hq⟩
    · have : s ∈ ([] : List String) := hleft
      simp at this
    · exact ⟨q, hqmem, hq⟩
  · intro s hs
    have hs' : s ∈ (reassignLoop r3 oracle 0 r3.players).1.assignedUnfoundSounds := hs
    rcases hsets.2 s hs' with hleft | ⟨q, hqmem, hq⟩
    · have : s ∈ ([] : List String) := hleft
      simp at this
    · exact ⟨q, hqmem, hq⟩

/-- C9: `requestPlayAgain` succeeds only in GameOver and only for a member;
on success the room returns to Waiting with winner cleared, all timer flags
off, reveal state cleared, every player's ready/found flags and sound
counter reset with fresh sound URLs assigned, each id/number/role unchanged,
and both assigned-sound sets hold only sounds drawn in the fresh
re-assignment (they were cleared before redistribution). -/
theorem C9_thm :
    ∀ (r r2 : Room) (i : SocketId) (oracle : Nat → Picks),
    r.requestPlayAgain i oracle = .ok r2 →
    r.gameState = GameState.GameOver ∧
    (r.getPlayer i).isSome = true ∧
    r2.gameState = GameState.Waiting ∧
    r2.winner = none ∧
    r2.preSeekCountdownOn = false ∧
    r2.seekTimerOn = false ∧
    r2.soundRotationOn = false ∧
    r2.seekStartTime = none ∧
    r2.unfoundPlayerQueue = [] ∧
    r2.activeUnfoundPlayerId = none ∧
    r2.players.map (fun p => (p.id, p.number, p.role)) =
      r.players.map (fun p => (p.id, p.number, p.role)) ∧
    (∀ q ∈ r2.players, q.isReady = false ∧ q.isFound = false ∧
      q.soundsPlayed = 0 ∧ q.uniqueAnimalSoundURL.isSome = true ∧
      q.uniqueUnfoundSoundURL.isSome = true) ∧
    (∀ s ∈ r2.assignedAnimalSounds, ∃ q ∈ r2.players,
      q.uniqueAnimalSoundURL = some s) ∧
    (∀ s ∈ r2.assignedUnfoundSounds, ∃ q ∈ r2.players,
      q.uniqueUnfoundSoundURL = some s) := by
  intro r r2 i oracle h
  unfold Room.requestPlayAgain at h
  split at h
  · simp at h
  · rename_i hgo
    have hgo' : r.gameState = GameState.GameOver := not_ne_iff.mp hgo
    cases hx : r.getPlayer i with
    | none => rw [hx] at h; simp at h
    | some p =>
      rw [hx] at h
      dsimp only at h
      injection h with h2
      subst h2
      have hspec := resetForNewGame_spec r oracle
      exact ⟨hgo', rfl, hspec.1, hspec.2.1, hspec.2.2.1,
        hspec.2.2.2.1, hspec.2.2.2.2.1, hspec.2.2.2.2.2.1,
        hspec.2.2.2.2.2.2.1, hspec.2.2.2.2.2.2.2.1,
        hspec.2.2.2.2.2.2.2.2.1, hspec.2.2.2.2.2.2.2.2.2.1,
        hspec.2.2.2.2.2.2.2.2.2.2.1, hspec.2.2.2.2.2.2.2.2.2.2.2⟩

def rAgain : Room :=
  (rGOr.requestPlayAgain 1 (fun _ => ⟨0, 0⟩)).toOption.getD {}

theorem C9_witness :
    rGOr.gameState = GameState.GameOver ∧
    rAgain.gameState = GameState.Waiting ∧
    rAgain.winner = none ∧
    rAgain.players.map (fun p => (p.id, p.number, p.role)) =
      rGOr.players.map (fun p => (p.id, p.number, p.role)) := by
  have h := C9_thm rGOr rAgain 1 (fun _ => ⟨0, 0⟩) (by rfl)
  exact ⟨h.1, h.2.2.1, h.2.2.2.1, h.2.2.2.2.2.2.2.2.2.2.1⟩

end HideNSeek
